import Mathlib

/-!
castrum: the per-frame simulation of `src/main.cpp`

A shallow embedding of the game logic of `main.cpp` (`input` and `update`) and the
properties of its economy clock, projectile physics, cursor movement and surprise timer.

Conventions of the embedding
* `Sint32` values are integers (`Int`); `Uint32` and `Uint8` values are naturals, and every
  operation that can wrap carries its `% 2 ^ w` explicitly.
* `float` values are the rationals they denote; every `float` operation rounds its exact
  result with `roundF32` (binary32, round to nearest, ties to even).
* Textures and fonts are rendering data and are left out of the records.
* `handleBallCollision`, `spawnSurprise`, `rotateCannon`, `actionTile` and `setTile` are defined
  in `utils.cpp`, which is not part of the sources at hand: they are parameters of the
  functions that call them.
-/

namespace Castrum

/-! ## Constants (`main.cpp`, lines 11-25) -/

def SCREEN_WIDTH : Int := 768
def SCREEN_HEIGHT : Int := 512
def TILE_SIZE : Int := 32
def CASTLE_SIZE : Int := 8
def MAX_BALLS : Nat := 16
def BALL_SPEED : Int := 20
def MAX_SUPPLY : Int := 100
def SUPPLY_TIME : Int := 1000
def SURPRISE_MIN_INTERVAL : Nat := 5000
def SURPRISE_MAX_INTERVAL : Nat := 20000
def SURPRISE_SUPPLY : Int := 50

/-! ## Machine arithmetic -/

/-- Conversion of an integer to `Sint32` (two's complement wrap), as done by
`lastSupplyTime = now`. -/
def toSint32 (n : Int) : Int := (n + 2 ^ 31) % 2 ^ 32 - 2 ^ 31

/-- Conversion of an integer to `Uint32`, the usual arithmetic conversion applied to a
`Sint32` operand that meets a `Uint32` one. -/
def toUint32 (n : Int) : Int := n % 2 ^ 32

/-- Subtraction of two `Uint32` values: `a - b` modulo `2 ^ 32`. -/
def subUint32 (a b : Nat) : Nat := (a + 2 ^ 32 - b % 2 ^ 32) % 2 ^ 32

/-- Post-decrement of a `Uint8`: `a--` modulo `2 ^ 8`. -/
def decUint8 (a : Nat) : Nat := (a + 255) % 256

/-- Round a rational to the nearest integer, ties to the even one. -/
def roundHalfEven (r : ℚ) : ℤ :=
  if r - ⌊r⌋ < 1 / 2 then ⌊r⌋
  else if 1 / 2 < r - ⌊r⌋ then ⌊r⌋ + 1
  else if ⌊r⌋ % 2 = 0 then ⌊r⌋ else ⌊r⌋ + 1

/-- Exponent of the unit in the last place of the binary32 format at `q`: 24 significant bits
in the normal range, the fixed spacing `2 ^ (-149)` in the subnormal range. -/
def ulpExp (q : ℚ) : ℤ := max (Int.log 2 |q| - 23) (-149)

/-- The exact results that binary32 rounds to a finite value: those of magnitude below
`2 ^ 128 - 2 ^ 103`, the midpoint between the largest finite value and `2 ^ 128`. -/
def InRangeF32 (q : ℚ) : Prop := |q| < 2 ^ 128 - 2 ^ 103

/-- Rounding of an exact result to binary32 (round to nearest, ties to even), for results in
the finite range `InRangeF32`. A result outside that range overflows to infinity in binary32;
infinities are not modelled, and statements about sums of unbounded magnitude assume
`InRangeF32` of them. -/
def roundF32 (q : ℚ) : ℚ := (roundHalfEven (q / 2 ^ ulpExp q) : ℚ) * 2 ^ ulpExp q

/-- Addition of two `float` values. -/
def addF32 (a b : ℚ) : ℚ := roundF32 (a + b)

/-- Conversion `Sint32 → float`. -/
def floatOfSint32 (n : Int) : ℚ := roundF32 n

/-- The integer part of a rational: the fractional part is discarded (truncation toward
zero). -/
def truncate (q : ℚ) : Int := if 0 ≤ q then ⌊q⌋ else ⌈q⌉

/-- Conversion `float → Sint32`: truncation toward zero. When the truncated value does not fit
`Sint32` the conversion is undefined in C++; the x86 conversion instruction then stores
`-2 ^ 31`, and that is the value taken here. -/
def truncToSint32 (q : ℚ) : Int :=
  if -2 ^ 31 ≤ truncate q ∧ truncate q < 2 ^ 31 then truncate q else -2 ^ 31

/-! ## Data model (`main.cpp`, lines 43-105) -/

inductive TileType where
  | WALL | MINE | CANNON | KING
  deriving DecidableEq, Repr

inductive Team where
  | BLUE | RED
  deriving DecidableEq, Repr

/-- The record `Tile`; `angle` is a `double`, kept as the rational it denotes. -/
structure Tile where
  x : Int
  y : Int
  alive : Bool
  type : TileType
  team : Team
  angle : ℚ

/-- The record `Ball`: integer pixel position, `float` velocity. `cannonTile` is the grid cell
of the tile the C++ pointer refers to, when there is one. -/
structure Ball where
  x : Int
  y : Int
  vx : ℚ
  vy : ℚ
  alive : Bool
  angle : ℚ
  collide : Bool
  cannonTile : Option (Nat × Nat)

/-- The record `Player`; `tile` is the cursor, `king` the grid cell the C++ pointer refers to. -/
structure Player where
  tile : Tile
  castle : Nat → Nat → Tile
  balls : Nat → Ball
  team : Team
  king : Nat × Nat
  ore : Int
  castleOffset : Int
  winner : Bool

/-- The record `Surprise`; `alpha` is a `Uint8`, the two times are `Uint32`. -/
structure Surprise where
  x : Int
  y : Int
  alpha : Nat
  alive : Bool
  spawning : Bool
  lastSpawnTime : Nat
  nextSpawnTime : Nat

/-- The record `World`, with its default gravity `0.5f`. -/
structure World where
  gravity : ℚ := 1 / 2

/-- The global variables of `main.cpp` that the game logic reads and writes. -/
structure Game where
  p1 : Player
  p2 : Player
  surprise : Surprise
  lastSupplyTime : Int
  keyDown : Bool

/-- Which of the two global players a call refers to (`&p1` or `&p2`). -/
inductive PlayerId where
  | P1 | P2
  deriving DecidableEq, Repr

/-- Type of `handleBallCollision(Player*, Ball*)`: the target player, the owner of the ball,
the index of the ball in its owner's pool, and the globals it works on. -/
abbrev CollisionHandler := PlayerId → PlayerId → Nat → Game → Game

/-! ## Input (`main.cpp`, lines 159-226) -/

/-- The event types `input` distinguishes. -/
inductive EventType where
  | KEYDOWN | KEYUP | OTHER
  deriving DecidableEq, Repr

/-- The scancodes `input` distinguishes; `OTHER` stands for every other key. -/
inductive Scancode where
  | W | S | A | D | G | H | UP | DOWN | LEFT | RIGHT | O | P | SPACE | RETURN | OTHER
  deriving DecidableEq, Repr

/-- The functions of `utils.cpp` that `input` calls. -/
structure InputHooks where
  rotateCannon : PlayerId → Int → Game → Game
  actionTile : PlayerId → Game → Game
  setTile : PlayerId → Game → Game

/-- Lines 167-176: cursor keys of player 1. -/
def moveCursorP1 (code : Scancode) (g : Game) : Game :=
  if code = Scancode.W then
    if g.p1.tile.y > 0 then { g with p1 := { g.p1 with tile := { g.p1.tile with y := g.p1.tile.y - 1 } } } else g
  else if code = Scancode.S then
    if g.p1.tile.y < CASTLE_SIZE - 1 then
      { g with p1 := { g.p1 with tile := { g.p1.tile with y := g.p1.tile.y + 1 } } } else g
  else if code = Scancode.A then
    if g.p1.tile.x > 0 then { g with p1 := { g.p1 with tile := { g.p1.tile with x := g.p1.tile.x - 1 } } } else g
  else if code = Scancode.D then
    if g.p1.tile.x < CASTLE_SIZE * 2 - 1 then
      { g with p1 := { g.p1 with tile := { g.p1.tile with x := g.p1.tile.x + 1 } } } else g
  else g

/-- Lines 187-196: cursor keys of player 2. -/
def moveCursorP2 (code : Scancode) (g : Game) : Game :=
  if code = Scancode.UP then
    if g.p2.tile.y > 0 then { g with p2 := { g.p2 with tile := { g.p2.tile with y := g.p2.tile.y - 1 } } } else g
  else if code = Scancode.DOWN then
    if g.p2.tile.y < CASTLE_SIZE - 1 then
      { g with p2 := { g.p2 with tile := { g.p2.tile with y := g.p2.tile.y + 1 } } } else g
  else if code = Scancode.LEFT then
    if g.p2.tile.x > -CASTLE_SIZE then
      { g with p2 := { g.p2 with tile := { g.p2.tile with x := g.p2.tile.x - 1 } } } else g
  else if code = Scancode.RIGHT then
    if g.p2.tile.x < CASTLE_SIZE - 1 then
      { g with p2 := { g.p2 with tile := { g.p2.tile with x := g.p2.tile.x + 1 } } } else g
  else g

/-- Lines 178-183 and 198-203: cannon keys of the player `who`. -/
def rotateKeys (k : InputHooks) (who : PlayerId) (left right : Scancode) (code : Scancode)
    (g : Game) : Game :=
  if code = left then k.rotateCannon who (-1) g
  else if code = right then k.rotateCannon who 1 g
  else g

/-- The function `input`: key-down moves a cursor or rotates a cannon, key-up performs the
action of the tile under the cursor. -/
def input (k : InputHooks) (type : EventType) (code : Scancode) (g : Game) : Game :=
  if type = EventType.KEYDOWN then
    let g1 := moveCursorP1 code g
    let g2 := rotateKeys k PlayerId.P1 Scancode.G Scancode.H code g1
    let g3 := moveCursorP2 code g2
    rotateKeys k PlayerId.P2 Scancode.O Scancode.P code g3
  else if type = EventType.KEYUP then
    let g1 := if code = Scancode.SPACE then k.setTile PlayerId.P1 (k.actionTile PlayerId.P1 g) else g
    if code = Scancode.RETURN then k.setTile PlayerId.P2 (k.actionTile PlayerId.P2 g1) else g1
  else g

/-! ## Update (`main.cpp`, lines 228-291) -/

/-- Lines 233-237: the supply clock. `now - lastSupplyTime` is computed in `Uint32`, and the
assignment `lastSupplyTime = now` converts back to `Sint32`. -/
def economyStep (now : Nat) (g : Game) : Game :=
  if toUint32 ((now : Int) - g.lastSupplyTime) ≥ SUPPLY_TIME then
    { g with
      p1 := { g.p1 with ore := if g.p1.ore < MAX_SUPPLY then g.p1.ore + 1 else MAX_SUPPLY }
      p2 := { g.p2 with ore := if g.p2.ore < MAX_SUPPLY then g.p2.ore + 1 else MAX_SUPPLY }
      lastSupplyTime := toSint32 now }
  else g

/-- Lines 251-253 (and 269-271): `vy += gravity; x += vx; y += vy`. The position is an
integer, so each sum is computed in `float` and truncated when it is stored. -/
def integrate (w : World) (b : Ball) : Ball :=
  let vy := addF32 b.vy w.gravity
  { b with
    vy := vy
    x := truncToSint32 (addF32 (floatOfSint32 b.x) b.vx)
    y := truncToSint32 (addF32 (floatOfSint32 b.y) vy) }

/-- Write the ball `b` at index `i` of the pool of player 1. -/
def setBall1 (i : Nat) (b : Ball) (g : Game) : Game :=
  { g with p1 := { g.p1 with balls := Function.update g.p1.balls i b } }

/-- Write the ball `b` at index `i` of the pool of player 2. -/
def setBall2 (i : Nat) (b : Ball) (g : Game) : Game :=
  { g with p2 := { g.p2 with balls := Function.update g.p2.balls i b } }

/-- Lines 262-276: the block of player 2 in the body of the ball loop. -/
def ballBodyP2 (h : CollisionHandler) (w : World) (i : Nat) (g : Game) : Game :=
  if (g.p2.balls i).alive then
    if (g.p2.balls i).y > SCREEN_HEIGHT then
      setBall2 i { g.p2.balls i with alive := false } g
    else
      let g1 := setBall2 i (integrate w (g.p2.balls i)) g
      let g2 := h PlayerId.P2 PlayerId.P2 i g1
      h PlayerId.P1 PlayerId.P2 i g2
  else g

/-- Lines 240-277: the body of the ball loop at index `i`. The `continue` of the block of
player 1 ends the iteration, so the block of player 2 does not run after it. -/
def ballBody (h : CollisionHandler) (w : World) (i : Nat) (g : Game) : Game :=
  if (g.p1.balls i).alive then
    if (g.p1.balls i).y > SCREEN_HEIGHT then
      setBall1 i { g.p1.balls i with alive := false } g
    else
      let g1 := setBall1 i (integrate w (g.p1.balls i)) g
      let g2 := h PlayerId.P1 PlayerId.P1 i g1
      let g3 := h PlayerId.P2 PlayerId.P1 i g2
      ballBodyP2 h w i g3
  else ballBodyP2 h w i g

/-- The ball loop run for the indices `0, ..., n - 1`. -/
def ballLoopUpTo (h : CollisionHandler) (w : World) (n : Nat) (g : Game) : Game :=
  (List.range n).foldl (fun acc i => ballBody h w i acc) g

/-- Lines 240-277: `for (i = 0; i < MAX_BALLS; i++)`. -/
def ballLoop (h : CollisionHandler) (w : World) (g : Game) : Game :=
  ballLoopUpTo h w MAX_BALLS g

/-- Lines 279-290: the surprise timer. `alpha <= 0` on a `Uint8` is `alpha == 0`; the time
difference is computed in `Uint32`. -/
def surpriseStep (spawnSurprise : Game → Game) (now : Nat) (g : Game) : Game :=
  if g.surprise.alive then
    if g.surprise.alpha ≤ 0 then
      { g with surprise := { g.surprise with alive := false, spawning := false } }
    else
      { g with surprise := { g.surprise with alpha := decUint8 g.surprise.alpha } }
  else if g.surprise.spawning = false ∧ subUint32 now g.surprise.lastSpawnTime ≥ g.surprise.nextSpawnTime then
    spawnSurprise g
  else g

/-- The function `update`, with `now` the value `SDL_GetTicks()` returns and `w` the global
`world`, which `main.cpp` only reads. -/
def update (h : CollisionHandler) (spawnSurprise : Game → Game) (w : World) (now : Nat)
    (g : Game) : Game :=
  surpriseStep spawnSurprise now (ballLoop h w (economyStep now g))


/-- A sequence of `update` calls, one for each value of the clock in turn. -/
def updates (h : CollisionHandler) (spawnSurprise : Game → Game) (w : World)
    (clock : List Nat) (g : Game) : Game :=
  clock.foldl (fun acc now => update h spawnSurprise w now acc) g

/-! ## Predicates and sample data used in the statements -/

/-- The ore bounds `0 ≤ ore ≤ MAX_SUPPLY` of both players. -/
def OreBounded (g : Game) : Prop :=
  0 ≤ g.p1.ore ∧ g.p1.ore ≤ MAX_SUPPLY ∧ 0 ≤ g.p2.ore ∧ g.p2.ore ≤ MAX_SUPPLY

/-- The value `v` clamped to the range `[lo, hi]`. -/
def clamp (lo hi v : Int) : Int := max lo (min hi v)

/-- The cursor tile of a player. -/
def cursor (who : PlayerId) (g : Game) : Tile :=
  match who with
  | PlayerId.P1 => g.p1.tile
  | PlayerId.P2 => g.p2.tile

/-- The other player. -/
def opponent (who : PlayerId) : PlayerId :=
  match who with
  | PlayerId.P1 => PlayerId.P2
  | PlayerId.P2 => PlayerId.P1

/-- Lower end of the horizontal cursor range of a player. -/
def cursorMinX (who : PlayerId) : Int :=
  match who with
  | PlayerId.P1 => 0
  | PlayerId.P2 => -CASTLE_SIZE

/-- Upper end of the horizontal cursor range of a player. -/
def cursorMaxX (who : PlayerId) : Int :=
  match who with
  | PlayerId.P1 => 2 * CASTLE_SIZE - 1
  | PlayerId.P2 => CASTLE_SIZE - 1

/-- The cursor of `who` is inside its range. -/
def CursorInRangeOf (who : PlayerId) (g : Game) : Prop :=
  cursorMinX who ≤ (cursor who g).x ∧ (cursor who g).x ≤ cursorMaxX who ∧
  0 ≤ (cursor who g).y ∧ (cursor who g).y ≤ CASTLE_SIZE - 1

/-- Both cursors are inside their ranges. -/
def CursorInRange (g : Game) : Prop :=
  ∀ who : PlayerId, CursorInRangeOf who g

/-- The cursor of `who` moved vertically by `dy`, clamped; nothing else about the cursors
changed between `g` and `g2`. -/
def MovedY (who : PlayerId) (dy : Int) (g g2 : Game) : Prop :=
  (cursor who g2).y = clamp 0 (CASTLE_SIZE - 1) ((cursor who g).y + dy) ∧
  (cursor who g2).x = (cursor who g).x ∧
  cursor (opponent who) g2 = cursor (opponent who) g

/-- The cursor of `who` moved horizontally by `dx`, clamped; nothing else about the cursors
changed between `g` and `g2`. -/
def MovedX (who : PlayerId) (dx : Int) (g g2 : Game) : Prop :=
  (cursor who g2).x = clamp (cursorMinX who) (cursorMaxX who) ((cursor who g).x + dx) ∧
  (cursor who g2).y = (cursor who g).y ∧
  cursor (opponent who) g2 = cursor (opponent who) g

/-- The eight keys that move a cursor. -/
def isMoveKey (code : Scancode) : Bool :=
  match code with
  | Scancode.W | Scancode.S | Scancode.A | Scancode.D => true
  | Scancode.UP | Scancode.DOWN | Scancode.LEFT | Scancode.RIGHT => true
  | _ => false

/-- The binary32 value nearest to `0.1`. -/
def tenthF32 : ℚ := 13421773 / 2 ^ 27

/-- A tile of a fresh grid. -/
def sampleTile : Tile :=
  { x := 0, y := 0, alive := false, type := TileType.WALL, team := Team.BLUE, angle := 0 }

/-- A free slot of a pool. -/
def deadBall : Ball :=
  { x := 0, y := 0, vx := 0, vy := 0, alive := false, angle := 0, collide := false,
    cannonTile := none }

/-- A ball in flight at `(x, y)` with velocity `(vx, vy)`. -/
def liveBall (x y : Int) (vx vy : ℚ) : Ball :=
  { x := x, y := y, vx := vx, vy := vy, alive := true, angle := 0, collide := false,
    cannonTile := none }

/-- A player with an empty grid, no ball in flight, and `ore` units of ore. -/
def samplePlayer (team : Team) (ore : Int) : Player :=
  { tile := { sampleTile with team := team }, castle := fun _ _ => sampleTile,
    balls := fun _ => deadBall, team := team, king := (0, 0), ore := ore, castleOffset := 0,
    winner := false }

/-- A surprise with the given flags and fade counter. -/
def sampleSurprise (alive spawning : Bool) (alpha : Nat) : Surprise :=
  { x := 100, y := 200, alpha := alpha, alive := alive, spawning := spawning,
    lastSpawnTime := 0, nextSpawnTime := 5000 }

/-- A game with no ball in flight and the given surprise. -/
def sampleGame (s : Surprise) : Game :=
  { p1 := samplePlayer Team.BLUE 10, p2 := samplePlayer Team.RED 100, surprise := s,
    lastSupplyTime := 0, keyDown := false }

/-- A collision handler that ends the match for the target player and touches nothing else. -/
def sampleHandler : CollisionHandler := fun target _ _ g =>
  match target with
  | PlayerId.P1 => { g with p2 := { g.p2 with winner := true } }
  | PlayerId.P2 => { g with p1 := { g.p1 with winner := true } }

/-- A spawn function that shows the surprise at full opacity. -/
def sampleSpawn (g : Game) : Game :=
  { g with surprise := { g.surprise with alive := true, spawning := true, alpha := 255 } }

/-- Input hooks that do nothing. -/
def sampleHooks : InputHooks :=
  { rotateCannon := fun _ _ g => g, actionTile := fun _ g => g, setTile := fun _ g => g }

/-- The latch follows the alive flag, and a dead surprise has a zero counter. -/
def LatchInv (s : Surprise) : Prop :=
  s.spawning = s.alive ∧ (s.alive = false → s.alpha = 0)

/-- Neither pool is changed by the function `f`. -/
def KeepsBalls (f : Game → Game) : Prop :=
  ∀ g : Game, (f g).p1.balls = g.p1.balls ∧ (f g).p2.balls = g.p2.balls

/-- A game in which slot 0 of player 1 holds a ball below the screen, at `y = 513`, and slot 0
of player 2 holds a ball at `(100, y2)` with velocity `(20, 0)`; the surprise is fading. -/
def skipGame (y2 : Int) : Game :=
  { p1 := { samplePlayer Team.BLUE 10 with
      balls := fun i => if i = 0 then liveBall 0 513 0 0 else deadBall }
    p2 := { samplePlayer Team.RED 10 with
      balls := fun i => if i = 0 then liveBall 100 y2 20 0 else deadBall }
    surprise := sampleSurprise true true 5
    lastSupplyTime := 0
    keyDown := false }

/-- A game in which slot 3 of player 1 holds a ball left of the screen at the height
`SCREEN_HEIGHT`, with velocity `(20, 0)`. -/
def edgeGame : Game :=
  { sampleGame (sampleSurprise false true 0) with
    p1 := { samplePlayer Team.BLUE 10 with
      balls := fun i => if i = 3 then liveBall (-50) 512 20 0 else deadBall } }

theorem roundHalfEven_intCast (z : ℤ) : roundHalfEven (z : ℚ) = z := by
  simp [roundHalfEven]

/-- The unit in the last place at `m * 2 ^ k` is at most `2 ^ k` when `m ≠ 0` has at most 24
bits and `k` is not below the subnormal exponent. -/
theorem ulpExp_le (m k : ℤ) (h0 : m ≠ 0) (hm : |m| < 2 ^ 24) (hk : -149 ≤ k) :
    ulpExp ((m : ℚ) * 2 ^ k) ≤ k := by
  unfold ulpExp
  apply max_le _ hk
  have h2k : (0 : ℚ) < 2 ^ k := zpow_pos (by norm_num) _
  have hpos : (0 : ℚ) < |(m : ℚ) * 2 ^ k| :=
    abs_pos.mpr (mul_ne_zero (by exact_mod_cast h0) h2k.ne')
  have hlt : |(m : ℚ) * 2 ^ k| < ((2 : ℕ) : ℚ) ^ (24 + k) := by
    rw [abs_mul, abs_of_pos h2k, zpow_add₀ (by norm_num)]
    apply mul_lt_mul_of_pos_right _ h2k
    have : ((|m| : ℤ) : ℚ) < ((2 ^ 24 : ℤ) : ℚ) := by exact_mod_cast hm
    norm_num at this ⊢
    exact this
  have := (Int.lt_zpow_iff_log_lt (by norm_num : 1 < 2) hpos).mp hlt
  omega

/-- A value `m * 2 ^ k` with at most 24 significant bits is a binary32 value: rounding leaves
it as it is. -/
theorem roundF32_dyadic (m k : ℤ) (hm : |m| < 2 ^ 24) (hk : -149 ≤ k) :
    roundF32 ((m : ℚ) * 2 ^ k) = (m : ℚ) * 2 ^ k := by
  by_cases h0 : m = 0
  · subst h0
    simp [roundF32, roundHalfEven]
  have hu := ulpExp_le m k h0 hm hk
  unfold roundF32
  set u := ulpExp ((m : ℚ) * 2 ^ k) with hu_def
  obtain ⟨d, hd⟩ : ∃ d : ℕ, k = u + d := ⟨(k - u).toNat, by omega⟩
  have h2 : (2 : ℚ) ^ u ≠ 0 := zpow_ne_zero _ (by norm_num)
  have hq : (m : ℚ) * 2 ^ k / 2 ^ u = ((m * 2 ^ d : ℤ) : ℚ) := by
    rw [hd, zpow_add₀ (by norm_num : (2 : ℚ) ≠ 0), zpow_natCast]
    field_simp
    ring
  rw [hq, roundHalfEven_intCast, hd, zpow_add₀ (by norm_num : (2 : ℚ) ≠ 0), zpow_natCast]
  push_cast
  ring

theorem roundF32_intCast (n : ℤ) (hn : |n| < 2 ^ 24) : roundF32 (n : ℚ) = n := by
  simpa using roundF32_dyadic n 0 hn (by norm_num)

theorem roundF32_half_odd (n : ℤ) (hn : |2 * n + 1| < 2 ^ 24) :
    roundF32 ((n : ℚ) + 1 / 2) = (n : ℚ) + 1 / 2 := by
  have h := roundF32_dyadic (2 * n + 1) (-1) hn (by norm_num)
  have e : ((2 * n + 1 : ℤ) : ℚ) * 2 ^ (-1 : ℤ) = (n : ℚ) + 1 / 2 := by
    push_cast
    rw [zpow_neg, zpow_one]
    ring
  rwa [e] at h

theorem truncate_intCast (n : ℤ) : truncate (n : ℚ) = n := by
  unfold truncate
  split <;> simp

theorem truncToSint32_intCast (n : ℤ) (hn : -2 ^ 31 ≤ n ∧ n < 2 ^ 31) :
    truncToSint32 (n : ℚ) = n := by
  unfold truncToSint32
  rw [truncate_intCast, if_pos hn]

theorem truncate_add_half (n : ℤ) :
    truncate ((n : ℚ) + 1 / 2) = if 0 ≤ n then n else n + 1 := by
  unfold truncate
  by_cases hn : 0 ≤ n
  · have h1 : (0 : ℚ) ≤ (n : ℚ) + 1 / 2 := by
      have : (0 : ℚ) ≤ n := by exact_mod_cast hn
      linarith
    rw [if_pos h1, if_pos hn, Int.floor_eq_iff]
    constructor <;> linarith
  · have h1 : ¬ (0 : ℚ) ≤ (n : ℚ) + 1 / 2 := by
      have : (n : ℚ) ≤ -1 := by exact_mod_cast (by omega : n ≤ -1)
      linarith
    rw [if_neg h1, if_neg hn, Int.ceil_eq_iff]
    push_cast
    constructor <;> linarith

theorem truncToSint32_add_half (n : ℤ) (hn : -2 ^ 31 ≤ n ∧ n + 1 < 2 ^ 31) :
    truncToSint32 ((n : ℚ) + 1 / 2) = if 0 ≤ n then n else n + 1 := by
  unfold truncToSint32
  rw [truncate_add_half]
  split <;> rw [if_pos (by omega)]

/-! ## Projectile integration -/

theorem integrate_vx (w : World) (b : Ball) : (integrate w b).vx = b.vx := rfl

theorem integrate_alive (w : World) (b : Ball) : (integrate w b).alive = b.alive := rfl

theorem integrate_vy (w : World) (b : Ball) : (integrate w b).vy = roundF32 (b.vy + w.gravity) := rfl

theorem integrate_iterate_vx (w : World) (n : Nat) (b : Ball) :
    ((integrate w)^[n] b).vx = b.vx := by
  induction n with
  | zero => rfl
  | succ n ih => rw [Function.iterate_succ_apply', integrate_vx, ih]

/-- One integration of a ball with velocity `(20, 0)` under gravity `0.5`, at a position of
magnitude below `2 ^ 23`. -/
theorem integrate_scenario (b : Ball) (hvx : b.vx = 20) (hvy : b.vy = 0)
    (hx : |b.x| < 2 ^ 23) (hy : |b.y| < 2 ^ 23) :
    (integrate { gravity := 1 / 2 } b).vx = 20 ∧
    (integrate { gravity := 1 / 2 } b).vy = 1 / 2 ∧
    (integrate { gravity := 1 / 2 } b).x = b.x + 20 ∧
    (integrate { gravity := 1 / 2 } b).y = if 0 ≤ b.y then b.y else b.y + 1 := by
  have hx' := abs_lt.mp hx
  have hy' := abs_lt.mp hy
  have hg : roundF32 ((0 : ℚ) + 1 / 2) = 1 / 2 := by
    simpa using roundF32_half_odd 0 (by norm_num)
  have h1 : roundF32 (b.x : ℚ) = b.x := roundF32_intCast b.x (abs_lt.mpr ⟨by omega, by omega⟩)
  have h2 : roundF32 ((b.x : ℚ) + 20) = ((b.x + 20 : ℤ) : ℚ) := by
    have := roundF32_intCast (b.x + 20) (abs_lt.mpr ⟨by omega, by omega⟩)
    push_cast at this ⊢
    exact this
  have h3 : roundF32 (b.y : ℚ) = b.y := roundF32_intCast b.y (abs_lt.mpr ⟨by omega, by omega⟩)
  have h4 : roundF32 ((b.y : ℚ) + 1 / 2) = (b.y : ℚ) + 1 / 2 :=
    roundF32_half_odd b.y (abs_lt.mpr ⟨by omega, by omega⟩)
  refine ⟨hvx, ?_, ?_, ?_⟩
  · simp only [integrate, addF32, hvy, hg]
  · simp only [integrate, addF32, floatOfSint32, hvx, h1, h2]
    exact truncToSint32_intCast _ ⟨by omega, by omega⟩
  · simp only [integrate, addF32, floatOfSint32, hvy, hg, h3, h4]
    exact truncToSint32_add_half _ ⟨by omega, by omega⟩

/-- Velocity after `n` integrations when no addition rounds (a fact about `roundF32`; it
speaks of binary32 when the sums are in the finite range). -/
theorem integrate_iterate_exact (w : World) (b : Ball) (n : Nat)
    (hrep : ∀ k : Nat, k < n →
      roundF32 (b.vy + (k + 1) * w.gravity) = b.vy + (k + 1) * w.gravity) :
    ((integrate w)^[n] b).vy = b.vy + n * w.gravity ∧ ((integrate w)^[n] b).vx = b.vx := by
  refine ⟨?_, integrate_iterate_vx w n b⟩
  induction n with
  | zero => simp
  | succ n ih =>
    rw [Function.iterate_succ_apply', integrate_vy, ih (fun k hk => hrep k (by omega))]
    have := hrep n (by omega)
    push_cast
    rw [show b.vy + (n : ℚ) * w.gravity + w.gravity = b.vy + ((n : ℚ) + 1) * w.gravity by ring]
    exact this

theorem tenthF32_representable : roundF32 tenthF32 = tenthF32 := by
  have h := roundF32_dyadic 13421773 (-27) (by norm_num) (by norm_num)
  have e : ((13421773 : ℤ) : ℚ) * 2 ^ (-27 : ℤ) = tenthF32 := by
    unfold tenthF32
    rw [zpow_neg]
    norm_num
  rwa [e] at h

theorem ulpExp_tenth_add_half : ulpExp (tenthF32 + 1 / 2) = -24 := by
  have hq : tenthF32 + 1 / 2 = 80530637 / 134217728 := by unfold tenthF32; norm_num
  have hpos : (0 : ℚ) < |tenthF32 + 1 / 2| := by rw [hq]; norm_num
  have h1 : (-1 : ℤ) ≤ Int.log 2 |tenthF32 + 1 / 2| := by
    apply (Int.zpow_le_iff_le_log (by norm_num : 1 < 2) hpos).mp
    rw [hq, zpow_neg, zpow_one]
    norm_num [abs_of_pos]
  have h2 : Int.log 2 |tenthF32 + 1 / 2| < 0 := by
    apply (Int.lt_zpow_iff_log_lt (by norm_num : 1 < 2) hpos).mp
    rw [hq, zpow_zero]
    norm_num [abs_of_pos]
  unfold ulpExp
  have : Int.log 2 |tenthF32 + 1 / 2| = -1 := by omega
  rw [this]
  norm_num

theorem roundF32_tenth_add_half : roundF32 (tenthF32 + 1 / 2) ≠ tenthF32 + 1 / 2 := by
  unfold roundF32
  rw [ulpExp_tenth_add_half]
  generalize roundHalfEven ((tenthF32 + 1 / 2) / 2 ^ (-24 : ℤ)) = z
  intro h
  have hq : tenthF32 + 1 / 2 = 80530637 / 134217728 := by unfold tenthF32; norm_num
  rw [hq, zpow_neg] at h
  have h8 : (z : ℚ) * 8 = 80530637 := by
    have h' := congrArg (fun t : ℚ => t * 134217728) h
    norm_num at h'
    linarith
  have h8z : z * 8 = 80530637 := by exact_mod_cast h8
  omega


/-! ## Economy clock -/

theorem toUint32_toSint32 (n : Nat) (hn : n < 2 ^ 32) : toUint32 (toSint32 n) = n := by
  unfold toUint32 toSint32
  omega

theorem toSint32_of_lt (n : Nat) (hn : n < 2 ^ 31) : toSint32 n = n := by
  unfold toSint32
  omega

theorem economyStep_expired (now : Nat) (g : Game)
    (hc : toUint32 ((now : Int) - g.lastSupplyTime) ≥ SUPPLY_TIME) :
    economyStep now g =
      { g with
        p1 := { g.p1 with ore := if g.p1.ore < MAX_SUPPLY then g.p1.ore + 1 else MAX_SUPPLY }
        p2 := { g.p2 with ore := if g.p2.ore < MAX_SUPPLY then g.p2.ore + 1 else MAX_SUPPLY }
        lastSupplyTime := toSint32 now } := by
  unfold economyStep
  rw [if_pos hc]

theorem economyStep_pending (now : Nat) (g : Game)
    (hc : ¬ toUint32 ((now : Int) - g.lastSupplyTime) ≥ SUPPLY_TIME) :
    economyStep now g = g := by
  unfold economyStep
  rw [if_neg hc]

theorem supply_eq_min (ore : Int) :
    (if ore < MAX_SUPPLY then ore + 1 else MAX_SUPPLY) = min (ore + 1) MAX_SUPPLY := by
  unfold MAX_SUPPLY
  split <;> omega

theorem economyStep_oreBounded (now : Nat) (g : Game) (hb : OreBounded g) :
    OreBounded (economyStep now g) := by
  unfold OreBounded at *
  unfold MAX_SUPPLY at *
  by_cases hc : toUint32 ((now : Int) - g.lastSupplyTime) ≥ SUPPLY_TIME
  · rw [economyStep_expired now g hc]
    simp only [MAX_SUPPLY]
    split <;> split <;> omega
  · rw [economyStep_pending now g hc]
    exact hb

theorem economySteps_oreBounded (clock : List Nat) (g : Game) (hb : OreBounded g) :
    OreBounded (clock.foldl (fun acc now => economyStep now acc) g) := by
  induction clock generalizing g with
  | nil => exact hb
  | cons now rest ih => exact ih _ (economyStep_oreBounded now g hb)


/-! ## Cursor movement -/

theorem input_keydown_W (k : InputHooks) (g : Game) :
    input k EventType.KEYDOWN Scancode.W g =
      if g.p1.tile.y > 0 then
        { g with p1 := { g.p1 with tile := { g.p1.tile with y := g.p1.tile.y - 1 } } } else g := by
  simp [input, moveCursorP1, moveCursorP2, rotateKeys]

theorem input_keydown_S (k : InputHooks) (g : Game) :
    input k EventType.KEYDOWN Scancode.S g =
      if g.p1.tile.y < CASTLE_SIZE - 1 then
        { g with p1 := { g.p1 with tile := { g.p1.tile with y := g.p1.tile.y + 1 } } } else g := by
  simp [input, moveCursorP1, moveCursorP2, rotateKeys]

theorem input_keydown_A (k : InputHooks) (g : Game) :
    input k EventType.KEYDOWN Scancode.A g =
      if g.p1.tile.x > 0 then
        { g with p1 := { g.p1 with tile := { g.p1.tile with x := g.p1.tile.x - 1 } } } else g := by
  simp [input, moveCursorP1, moveCursorP2, rotateKeys]

theorem input_keydown_D (k : InputHooks) (g : Game) :
    input k EventType.KEYDOWN Scancode.D g =
      if g.p1.tile.x < CASTLE_SIZE * 2 - 1 then
        { g with p1 := { g.p1 with tile := { g.p1.tile with x := g.p1.tile.x + 1 } } } else g := by
  simp [input, moveCursorP1, moveCursorP2, rotateKeys]

theorem input_keydown_UP (k : InputHooks) (g : Game) :
    input k EventType.KEYDOWN Scancode.UP g =
      if g.p2.tile.y > 0 then
        { g with p2 := { g.p2 with tile := { g.p2.tile with y := g.p2.tile.y - 1 } } } else g := by
  simp [input, moveCursorP1, moveCursorP2, rotateKeys]

theorem input_keydown_DOWN (k : InputHooks) (g : Game) :
    input k EventType.KEYDOWN Scancode.DOWN g =
      if g.p2.tile.y < CASTLE_SIZE - 1 then
        { g with p2 := { g.p2 with tile := { g.p2.tile with y := g.p2.tile.y + 1 } } } else g := by
  simp [input, moveCursorP1, moveCursorP2, rotateKeys]

theorem input_keydown_LEFT (k : InputHooks) (g : Game) :
    input k EventType.KEYDOWN Scancode.LEFT g =
      if g.p2.tile.x > -CASTLE_SIZE then
        { g with p2 := { g.p2 with tile := { g.p2.tile with x := g.p2.tile.x - 1 } } } else g := by
  simp [input, moveCursorP1, moveCursorP2, rotateKeys]

theorem input_keydown_RIGHT (k : InputHooks) (g : Game) :
    input k EventType.KEYDOWN Scancode.RIGHT g =
      if g.p2.tile.x < CASTLE_SIZE - 1 then
        { g with p2 := { g.p2 with tile := { g.p2.tile with x := g.p2.tile.x + 1 } } } else g := by
  simp [input, moveCursorP1, moveCursorP2, rotateKeys]

theorem cursorInRangeOf_P1 (g : Game) :
    CursorInRangeOf PlayerId.P1 g ↔
      (0 ≤ g.p1.tile.x ∧ g.p1.tile.x ≤ 15 ∧ 0 ≤ g.p1.tile.y ∧ g.p1.tile.y ≤ 7) := by
  simp only [CursorInRangeOf, cursor, cursorMinX, cursorMaxX, CASTLE_SIZE]
  constructor <;> intro h <;> omega

theorem cursorInRangeOf_P2 (g : Game) :
    CursorInRangeOf PlayerId.P2 g ↔
      (-8 ≤ g.p2.tile.x ∧ g.p2.tile.x ≤ 7 ∧ 0 ≤ g.p2.tile.y ∧ g.p2.tile.y ≤ 7) := by
  simp only [CursorInRangeOf, cursor, cursorMinX, cursorMaxX, CASTLE_SIZE]
  constructor <;> intro h <;> omega

theorem cursorInRange_iff (g : Game) :
    CursorInRange g ↔
      (0 ≤ g.p1.tile.x ∧ g.p1.tile.x ≤ 15 ∧ 0 ≤ g.p1.tile.y ∧ g.p1.tile.y ≤ 7) ∧
      (-8 ≤ g.p2.tile.x ∧ g.p2.tile.x ≤ 7 ∧ 0 ≤ g.p2.tile.y ∧ g.p2.tile.y ≤ 7) := by
  rw [← cursorInRangeOf_P1, ← cursorInRangeOf_P2]
  constructor
  · intro h
    exact ⟨h PlayerId.P1, h PlayerId.P2⟩
  · rintro ⟨h1, h2⟩ who
    cases who
    · exact h1
    · exact h2

theorem moved_W (k : InputHooks) (g : Game) (hr : CursorInRangeOf PlayerId.P1 g) :
    MovedY PlayerId.P1 (-1) g (input k EventType.KEYDOWN Scancode.W g) := by
  have h1 := (cursorInRangeOf_P1 g).mp hr
  rw [input_keydown_W]
  unfold MovedY
  simp only [cursor, opponent, clamp, CASTLE_SIZE]
  split <;> simp <;> omega

theorem moved_S (k : InputHooks) (g : Game) (hr : CursorInRangeOf PlayerId.P1 g) :
    MovedY PlayerId.P1 1 g (input k EventType.KEYDOWN Scancode.S g) := by
  have h1 := (cursorInRangeOf_P1 g).mp hr
  rw [input_keydown_S]
  unfold MovedY
  simp only [cursor, opponent, clamp, CASTLE_SIZE]
  split <;> simp <;> omega

theorem moved_A (k : InputHooks) (g : Game) (hr : CursorInRangeOf PlayerId.P1 g) :
    MovedX PlayerId.P1 (-1) g (input k EventType.KEYDOWN Scancode.A g) := by
  have h1 := (cursorInRangeOf_P1 g).mp hr
  rw [input_keydown_A]
  unfold MovedX
  simp only [cursor, opponent, clamp, cursorMinX, cursorMaxX, CASTLE_SIZE]
  split <;> simp <;> omega

theorem moved_D (k : InputHooks) (g : Game) (hr : CursorInRangeOf PlayerId.P1 g) :
    MovedX PlayerId.P1 1 g (input k EventType.KEYDOWN Scancode.D g) := by
  have h1 := (cursorInRangeOf_P1 g).mp hr
  rw [input_keydown_D]
  unfold MovedX
  simp only [cursor, opponent, clamp, cursorMinX, cursorMaxX, CASTLE_SIZE]
  split <;> simp <;> omega

theorem moved_UP (k : InputHooks) (g : Game) (hr : CursorInRangeOf PlayerId.P2 g) :
    MovedY PlayerId.P2 (-1) g (input k EventType.KEYDOWN Scancode.UP g) := by
  have h1 := (cursorInRangeOf_P2 g).mp hr
  rw [input_keydown_UP]
  unfold MovedY
  simp only [cursor, opponent, clamp, CASTLE_SIZE]
  split <;> simp <;> omega

theorem moved_DOWN (k : InputHooks) (g : Game) (hr : CursorInRangeOf PlayerId.P2 g) :
    MovedY PlayerId.P2 1 g (input k EventType.KEYDOWN Scancode.DOWN g) := by
  have h1 := (cursorInRangeOf_P2 g).mp hr
  rw [input_keydown_DOWN]
  unfold MovedY
  simp only [cursor, opponent, clamp, CASTLE_SIZE]
  split <;> simp <;> omega

theorem moved_LEFT (k : InputHooks) (g : Game) (hr : CursorInRangeOf PlayerId.P2 g) :
    MovedX PlayerId.P2 (-1) g (input k EventType.KEYDOWN Scancode.LEFT g) := by
  have h1 := (cursorInRangeOf_P2 g).mp hr
  rw [input_keydown_LEFT]
  unfold MovedX
  simp only [cursor, opponent, clamp, cursorMinX, cursorMaxX, CASTLE_SIZE]
  split <;> simp <;> omega

theorem moved_RIGHT (k : InputHooks) (g : Game) (hr : CursorInRangeOf PlayerId.P2 g) :
    MovedX PlayerId.P2 1 g (input k EventType.KEYDOWN Scancode.RIGHT g) := by
  have h1 := (cursorInRangeOf_P2 g).mp hr
  rw [input_keydown_RIGHT]
  unfold MovedX
  simp only [cursor, opponent, clamp, cursorMinX, cursorMaxX, CASTLE_SIZE]
  split <;> simp <;> omega

/-- A move key leaves both cursors inside their ranges. -/
theorem input_move_inRange (k : InputHooks) (code : Scancode) (hm : isMoveKey code = true)
    (g : Game) (hr : CursorInRange g) :
    CursorInRange (input k EventType.KEYDOWN code g) := by
  have hg := (cursorInRange_iff g).mp hr
  rw [cursorInRange_iff]
  cases code <;> simp only [isMoveKey] at hm <;> try exact absurd hm (by decide)
  · rw [input_keydown_W]; split <;> (try simp) <;> omega
  · rw [input_keydown_S]; simp only [CASTLE_SIZE]; split <;> (try simp) <;> omega
  · rw [input_keydown_A]; split <;> (try simp) <;> omega
  · rw [input_keydown_D]; simp only [CASTLE_SIZE]; split <;> (try simp) <;> omega
  · rw [input_keydown_UP]; split <;> (try simp) <;> omega
  · rw [input_keydown_DOWN]; simp only [CASTLE_SIZE]; split <;> (try simp) <;> omega
  · rw [input_keydown_LEFT]; simp only [CASTLE_SIZE]; split <;> (try simp) <;> omega
  · rw [input_keydown_RIGHT]; simp only [CASTLE_SIZE]; split <;> (try simp) <;> omega

theorem inputs_move_inRange (k : InputHooks) (keys : List Scancode)
    (hm : ∀ c ∈ keys, isMoveKey c = true) (g : Game) (hr : CursorInRange g) :
    CursorInRange (keys.foldl (fun acc c => input k EventType.KEYDOWN c acc) g) := by
  induction keys generalizing g with
  | nil => exact hr
  | cons c rest ih =>
    exact ih (fun d hd => hm d (List.mem_cons_of_mem c hd)) _
      (input_move_inRange k c (hm c (List.mem_cons_self c rest)) g hr)

/-- C3: a cursor-move key-down handled by `input`, with the cursor of the moving player
inside its range, shifts the commanded coordinate of that cursor by one cell, clamped to the
range (`y` to `[0, CASTLE_SIZE-1]`; `x` to `[0, 2*CASTLE_SIZE-1]` for player 1 and to
`[-CASTLE_SIZE, CASTLE_SIZE-1]` for player 2), and leaves the other coordinate and the other
player's cursor unchanged; after any sequence of move keys, cursors that were inside their
ranges are still inside them. -/
theorem cursor_move_clamped (k : InputHooks) (g : Game) :
    (CursorInRangeOf PlayerId.P1 g →
      MovedY PlayerId.P1 (-1) g (input k EventType.KEYDOWN Scancode.W g) ∧
      MovedY PlayerId.P1 1 g (input k EventType.KEYDOWN Scancode.S g) ∧
      MovedX PlayerId.P1 (-1) g (input k EventType.KEYDOWN Scancode.A g) ∧
      MovedX PlayerId.P1 1 g (input k EventType.KEYDOWN Scancode.D g)) ∧
    (CursorInRangeOf PlayerId.P2 g →
      MovedY PlayerId.P2 (-1) g (input k EventType.KEYDOWN Scancode.UP g) ∧
      MovedY PlayerId.P2 1 g (input k EventType.KEYDOWN Scancode.DOWN g) ∧
      MovedX PlayerId.P2 (-1) g (input k EventType.KEYDOWN Scancode.LEFT g) ∧
      MovedX PlayerId.P2 1 g (input k EventType.KEYDOWN Scancode.RIGHT g)) ∧
    (CursorInRange g →
      ∀ keys : List Scancode, (∀ c ∈ keys, isMoveKey c = true) →
        CursorInRange (keys.foldl (fun acc c => input k EventType.KEYDOWN c acc) g)) :=
  ⟨fun hr => ⟨moved_W k g hr, moved_S k g hr, moved_A k g hr, moved_D k g hr⟩,
    fun hr => ⟨moved_UP k g hr, moved_DOWN k g hr, moved_LEFT k g hr, moved_RIGHT k g hr⟩,
    fun hr keys hm => inputs_move_inRange k keys hm g hr⟩

theorem sampleGame_cursorInRange (s : Surprise) : CursorInRange (sampleGame s) := by
  rw [cursorInRange_iff]
  simp [sampleGame, samplePlayer, sampleTile]

theorem cursor_move_clamped_witness :
    CursorInRange (sampleGame (sampleSurprise false false 0)) ∧
    (cursor PlayerId.P1
      (input sampleHooks EventType.KEYDOWN Scancode.W
        (sampleGame (sampleSurprise false false 0)))).y = 0 ∧
    (cursor PlayerId.P1
      (input sampleHooks EventType.KEYDOWN Scancode.D
        (sampleGame (sampleSurprise false false 0)))).x = 1 ∧
    CursorInRange ([Scancode.D, Scancode.UP, Scancode.LEFT, Scancode.S].foldl
      (fun acc c => input sampleHooks EventType.KEYDOWN c acc)
      (sampleGame (sampleSurprise false false 0))) :=
  ⟨sampleGame_cursorInRange _,
    by
      have h := ((cursor_move_clamped sampleHooks (sampleGame (sampleSurprise false false 0))).1
        (sampleGame_cursorInRange _ PlayerId.P1)).1.1
      simpa [cursor, clamp, sampleGame, samplePlayer, sampleTile, CASTLE_SIZE] using h,
    by
      have h := ((cursor_move_clamped sampleHooks (sampleGame (sampleSurprise false false 0))).1
        (sampleGame_cursorInRange _ PlayerId.P1)).2.2.2.1
      simpa [cursor, clamp, cursorMinX, cursorMaxX, sampleGame, samplePlayer, sampleTile,
        CASTLE_SIZE] using h,
    (cursor_move_clamped sampleHooks (sampleGame (sampleSurprise false false 0))).2.2
      (sampleGame_cursorInRange _) _ (by decide)⟩

/-! ## Frame of the ball loop -/

/-- A quantity that neither the ball writes nor the collision handler change is not changed
by one iteration of the ball loop. -/
theorem ballBody_frame {α : Type} (f : Game → α) (h : CollisionHandler) (w : World)
    (hs1 : ∀ i b g, f (setBall1 i b g) = f g) (hs2 : ∀ i b g, f (setBall2 i b g) = f g)
    (hh : ∀ t o i g, f (h t o i g) = f g) (i : Nat) (g : Game) :
    f (ballBody h w i g) = f g := by
  have hp2 : ∀ g, f (ballBodyP2 h w i g) = f g := by
    intro g
    unfold ballBodyP2
    split
    · split
      · rw [hs2]
      · simp only [hh, hs2]
    · rfl
  unfold ballBody
  split
  · split
    · rw [hs1]
    · simp only [hp2, hh, hs1]
  · rw [hp2]

theorem ballLoopUpTo_succ (h : CollisionHandler) (w : World) (n : Nat) (g : Game) :
    ballLoopUpTo h w (n + 1) g = ballBody h w n (ballLoopUpTo h w n g) := by
  simp [ballLoopUpTo, List.range_succ]

theorem ballLoopUpTo_frame {α : Type} (f : Game → α) (h : CollisionHandler) (w : World)
    (hs1 : ∀ i b g, f (setBall1 i b g) = f g) (hs2 : ∀ i b g, f (setBall2 i b g) = f g)
    (hh : ∀ t o i g, f (h t o i g) = f g) (n : Nat) (g : Game) :
    f (ballLoopUpTo h w n g) = f g := by
  induction n with
  | zero => rfl
  | succ n ih => rw [ballLoopUpTo_succ, ballBody_frame f h w hs1 hs2 hh, ih]

theorem ballLoop_surprise (h : CollisionHandler) (w : World)
    (hh : ∀ t o i g, (h t o i g).surprise = g.surprise) (g : Game) :
    (ballLoop h w g).surprise = g.surprise :=
  ballLoopUpTo_frame (fun g => g.surprise) h w (fun _ _ _ => rfl) (fun _ _ _ => rfl) hh _ g

theorem ballLoop_ore (h : CollisionHandler) (w : World)
    (hh : ∀ t o i g, (h t o i g).p1.ore = g.p1.ore ∧ (h t o i g).p2.ore = g.p2.ore) (g : Game) :
    (ballLoop h w g).p1.ore = g.p1.ore ∧ (ballLoop h w g).p2.ore = g.p2.ore :=
  ⟨ballLoopUpTo_frame (fun g => g.p1.ore) h w (fun _ _ _ => rfl) (fun _ _ _ => rfl)
      (fun t o i g => (hh t o i g).1) _ g,
    ballLoopUpTo_frame (fun g => g.p2.ore) h w (fun _ _ _ => rfl) (fun _ _ _ => rfl)
      (fun t o i g => (hh t o i g).2) _ g⟩

theorem economyStep_surprise (now : Nat) (g : Game) :
    (economyStep now g).surprise = g.surprise := by
  unfold economyStep
  split <;> rfl

/-! ## Economy clock: the claims -/

/-- C4: economy step of `update`. When `now - lastSupplyTime >= SUPPLY_TIME` (computed in
`Uint32`, as the code does), the ore of each player becomes `min (ore + 1) MAX_SUPPLY` and
`lastSupplyTime` becomes `now` (stored as `Sint32`: the same 32-bit value, and the same number
while `now < 2 ^ 31`); otherwise the step changes nothing. Both players are served by the
same branch, so never one without the other. While `0 ≤ lastSupplyTime ≤ now` the `Uint32`
comparison is the comparison of the integers. -/
theorem economy_step (now : Nat) (g : Game) (hnow : now < 2 ^ 32) :
    (toUint32 ((now : Int) - g.lastSupplyTime) ≥ SUPPLY_TIME →
      (economyStep now g).p1.ore = min (g.p1.ore + 1) MAX_SUPPLY ∧
      (economyStep now g).p2.ore = min (g.p2.ore + 1) MAX_SUPPLY ∧
      (economyStep now g).lastSupplyTime = toSint32 now ∧
      toUint32 (economyStep now g).lastSupplyTime = now ∧
      (now < 2 ^ 31 → (economyStep now g).lastSupplyTime = now)) ∧
    (¬ toUint32 ((now : Int) - g.lastSupplyTime) ≥ SUPPLY_TIME → economyStep now g = g) ∧
    (0 ≤ g.lastSupplyTime → g.lastSupplyTime ≤ now →
      (toUint32 ((now : Int) - g.lastSupplyTime) ≥ SUPPLY_TIME ↔
        (now : Int) - g.lastSupplyTime ≥ SUPPLY_TIME)) := by
  refine ⟨?_, economyStep_pending now g, ?_⟩
  · intro hc
    rw [economyStep_expired now g hc]
    exact ⟨supply_eq_min _, supply_eq_min _, rfl, toUint32_toSint32 now hnow,
      fun hlt => toSint32_of_lt now hlt⟩
  · intro h0 hle
    have e : toUint32 ((now : Int) - g.lastSupplyTime) = (now : Int) - g.lastSupplyTime := by
      unfold toUint32
      omega
    rw [e]

theorem economy_step_witness :
    (5000 : Nat) < 2 ^ 32 ∧
    (economyStep 5000 (sampleGame (sampleSurprise false false 0))).p1.ore = 11 ∧
    (economyStep 5000 (sampleGame (sampleSurprise false false 0))).p2.ore = 100 ∧
    (economyStep 5000 (sampleGame (sampleSurprise false false 0))).lastSupplyTime = 5000 := by
  have h := (economy_step 5000 (sampleGame (sampleSurprise false false 0)) (by norm_num)).1
    (by decide)
  refine ⟨by norm_num, ?_, ?_, ?_⟩
  · simpa [sampleGame, samplePlayer, MAX_SUPPLY] using h.1
  · simpa [sampleGame, samplePlayer, MAX_SUPPLY] using h.2.1
  · simpa using h.2.2.2.2 (by norm_num)

theorem surpriseStep_ore (sp : Game → Game) (now : Nat) (g : Game)
    (hsp : ∀ g, (sp g).p1.ore = g.p1.ore ∧ (sp g).p2.ore = g.p2.ore) :
    (surpriseStep sp now g).p1.ore = g.p1.ore ∧ (surpriseStep sp now g).p2.ore = g.p2.ore := by
  unfold surpriseStep
  split
  · split <;> exact ⟨rfl, rfl⟩
  · split
    · exact hsp g
    · exact ⟨rfl, rfl⟩

theorem update_oreBounded (h : CollisionHandler) (sp : Game → Game) (w : World)
    (hh : ∀ t o i g, (h t o i g).p1.ore = g.p1.ore ∧ (h t o i g).p2.ore = g.p2.ore)
    (hsp : ∀ g, (sp g).p1.ore = g.p1.ore ∧ (sp g).p2.ore = g.p2.ore)
    (now : Nat) (g : Game) (hb : OreBounded g) : OreBounded (update h sp w now g) := by
  have h1 := economyStep_oreBounded now g hb
  have h2 := ballLoop_ore h w hh (economyStep now g)
  have h3 := surpriseStep_ore sp now (ballLoop h w (economyStep now g)) hsp
  unfold OreBounded at *
  unfold update
  rw [h3.1, h3.2, h2.1, h2.2]
  exact h1

theorem updates_oreBounded (h : CollisionHandler) (sp : Game → Game) (w : World)
    (hh : ∀ t o i g, (h t o i g).p1.ore = g.p1.ore ∧ (h t o i g).p2.ore = g.p2.ore)
    (hsp : ∀ g, (sp g).p1.ore = g.p1.ore ∧ (sp g).p2.ore = g.p2.ore)
    (clock : List Nat) (g : Game) (hb : OreBounded g) :
    OreBounded (updates h sp w clock g) := by
  unfold updates
  induction clock generalizing g with
  | nil => exact hb
  | cons now rest ih => exact ih _ (update_oreBounded h sp w hh hsp now g hb)

/-- C5: the ore bounds are an invariant of the tick. If `0 ≤ ore ≤ MAX_SUPPLY` holds for both
players, it holds after the economy step for every value of the clock, after every sequence
of economy steps, and after every sequence of `update` calls whose collision handler and
spawn function leave the ore alone. -/
theorem ore_bounds_invariant (g : Game) (hb : OreBounded g) :
    (∀ now : Nat, OreBounded (economyStep now g)) ∧
    (∀ clock : List Nat, OreBounded (clock.foldl (fun acc now => economyStep now acc) g)) ∧
    (∀ (h : CollisionHandler) (sp : Game → Game) (w : World),
      (∀ t o i g2, (h t o i g2).p1.ore = g2.p1.ore ∧ (h t o i g2).p2.ore = g2.p2.ore) →
      (∀ g2, (sp g2).p1.ore = g2.p1.ore ∧ (sp g2).p2.ore = g2.p2.ore) →
      ∀ clock : List Nat, OreBounded (updates h sp w clock g)) :=
  ⟨fun now => economyStep_oreBounded now g hb,
    fun clock => economySteps_oreBounded clock g hb,
    fun h sp w hh hsp clock => updates_oreBounded h sp w hh hsp clock g hb⟩

theorem sampleGame_oreBounded (s : Surprise) : OreBounded (sampleGame s) := by
  simp [OreBounded, sampleGame, samplePlayer, MAX_SUPPLY]

theorem sampleHandler_ore (t o : PlayerId) (i : Nat) (g : Game) :
    (sampleHandler t o i g).p1.ore = g.p1.ore ∧ (sampleHandler t o i g).p2.ore = g.p2.ore := by
  cases t <;> exact ⟨rfl, rfl⟩

theorem ore_bounds_invariant_witness :
    OreBounded (sampleGame (sampleSurprise false false 0)) ∧
    OreBounded (economyStep 5000 (sampleGame (sampleSurprise false false 0))) ∧
    OreBounded (updates sampleHandler sampleSpawn { gravity := 1 / 2 } [1000, 6000, 7000]
      (sampleGame (sampleSurprise false false 0))) :=
  ⟨sampleGame_oreBounded _,
    (ore_bounds_invariant _ (sampleGame_oreBounded _)).1 5000,
    (ore_bounds_invariant _ (sampleGame_oreBounded _)).2.2 sampleHandler sampleSpawn _
      sampleHandler_ore (fun _ => ⟨rfl, rfl⟩) [1000, 6000, 7000]⟩

/-! ## Surprise timer -/

theorem update_eq (h : CollisionHandler) (sp : Game → Game) (w : World) (now : Nat) (g : Game) :
    update h sp w now g = surpriseStep sp now (ballLoop h w (economyStep now g)) := rfl

/-- The surprise that the last stage of `update` sees is the one of the start of the tick,
when the collision handler leaves the surprise alone. -/
theorem preSurprise_eq (h : CollisionHandler) (w : World)
    (hh : ∀ t o i g2, (h t o i g2).surprise = g2.surprise) (now : Nat) (g : Game) :
    (ballLoop h w (economyStep now g)).surprise = g.surprise := by
  rw [ballLoop_surprise h w hh, economyStep_surprise]

theorem surpriseStep_spawn (sp : Game → Game) (now : Nat) (g : Game)
    (ha : g.surprise.alive = false) (hs : g.surprise.spawning = false)
    (ht : subUint32 now g.surprise.lastSpawnTime ≥ g.surprise.nextSpawnTime) :
    surpriseStep sp now g = sp g := by
  unfold surpriseStep
  simp [ha, hs, ht]

/-- Outside the spawn branch the step does not depend on the spawn function and does not
touch `lastSupplyTime`. -/
theorem surpriseStep_noSpawn (sp : Game → Game) (now : Nat) (g : Game)
    (hn : ¬ (g.surprise.alive = false ∧ g.surprise.spawning = false ∧
      subUint32 now g.surprise.lastSpawnTime ≥ g.surprise.nextSpawnTime)) :
    surpriseStep sp now g = surpriseStep (fun x => x) now g ∧
    (surpriseStep sp now g).lastSupplyTime = g.lastSupplyTime := by
  unfold surpriseStep
  by_cases ha : g.surprise.alive = true
  · rw [if_pos ha, if_pos ha]
    split <;> exact ⟨rfl, rfl⟩
  · have ha2 : g.surprise.alive = false := by simpa using ha
    have hc : ¬ (g.surprise.spawning = false ∧
        subUint32 now g.surprise.lastSpawnTime ≥ g.surprise.nextSpawnTime) :=
      fun hc => hn ⟨ha2, hc.1, hc.2⟩
    rw [if_neg ha, if_neg ha, if_neg hc, if_neg hc]
    exact ⟨rfl, rfl⟩

/-- C8: `update` calls `spawnSurprise` (its result is the result of `spawnSurprise` on the
state the ball loop left, whatever `spawnSurprise` is) if and only if at the start of the tick
the surprise is dormant (`alive = false` and `spawning = false`) and
`now - lastSpawnTime >= nextSpawnTime` (computed in `Uint32`); in every other tick, in
particular when the surprise is alive or `spawning` is latched, the result of `update` does
not depend on `spawnSurprise`. The collision handler is one that leaves the surprise alone. -/
theorem spawn_iff_dormant_and_due (h : CollisionHandler) (w : World) (now : Nat) (g : Game)
    (hh : ∀ t o i g2, (h t o i g2).surprise = g2.surprise) :
    ((∀ sp : Game → Game, update h sp w now g = sp (ballLoop h w (economyStep now g))) ↔
      (g.surprise.alive = false ∧ g.surprise.spawning = false ∧
        subUint32 now g.surprise.lastSpawnTime ≥ g.surprise.nextSpawnTime)) ∧
    ((g.surprise.alive = true ∨ g.surprise.spawning = true) →
      ∀ sp sp2 : Game → Game, update h sp w now g = update h sp2 w now g) := by
  have hpre := preSurprise_eq h w hh now g
  constructor
  · constructor
    · intro hall
      by_contra hn
      rw [← hpre] at hn
      have h1 := (surpriseStep_noSpawn (fun x => { x with lastSupplyTime := x.lastSupplyTime + 1 })
        now _ hn).2
      have h2 := hall (fun x => { x with lastSupplyTime := x.lastSupplyTime + 1 })
      rw [update_eq] at h2
      rw [h2] at h1
      simp at h1
    · rintro ⟨ha, hs, ht⟩ sp
      rw [update_eq]
      exact surpriseStep_spawn sp now _ (by rw [hpre]; exact ha) (by rw [hpre]; exact hs)
        (by rw [hpre]; exact ht)
  · intro hor sp sp2
    have hn : ¬ ((ballLoop h w (economyStep now g)).surprise.alive = false ∧
        (ballLoop h w (economyStep now g)).surprise.spawning = false ∧
        subUint32 now (ballLoop h w (economyStep now g)).surprise.lastSpawnTime ≥
          (ballLoop h w (economyStep now g)).surprise.nextSpawnTime) := by
      rw [hpre]
      rintro ⟨ha, hs, _⟩
      rcases hor with h1 | h1
      · rw [ha] at h1; exact absurd h1 (by decide)
      · rw [hs] at h1; exact absurd h1 (by decide)
    rw [update_eq, update_eq, (surpriseStep_noSpawn sp now _ hn).1,
      (surpriseStep_noSpawn sp2 now _ hn).1]

theorem sampleHandler_surprise (t o : PlayerId) (i : Nat) (g : Game) :
    (sampleHandler t o i g).surprise = g.surprise := by
  cases t <;> rfl

theorem spawn_iff_dormant_and_due_witness :
    update sampleHandler sampleSpawn { gravity := 1 / 2 } 6000
        (sampleGame (sampleSurprise false false 0)) =
      sampleSpawn (ballLoop sampleHandler { gravity := 1 / 2 }
        (economyStep 6000 (sampleGame (sampleSurprise false false 0)))) :=
  (spawn_iff_dormant_and_due sampleHandler { gravity := 1 / 2 } 6000
    (sampleGame (sampleSurprise false false 0)) sampleHandler_surprise).1.2
    ⟨rfl, rfl, by decide⟩ sampleSpawn

/-! ## Fade of the surprise -/

theorem decUint8_pos (a : Nat) (h0 : 0 < a) (ha : a ≤ 255) : decUint8 a = a - 1 := by
  unfold decUint8
  omega

/-- One tick on a live surprise whose fade counter is positive. -/
theorem update_fade (h : CollisionHandler) (sp : Game → Game) (w : World)
    (hh : ∀ t o i g2, (h t o i g2).surprise = g2.surprise) (now : Nat) (g : Game)
    (halive : g.surprise.alive = true) (hpos : 0 < g.surprise.alpha) :
    (update h sp w now g).surprise =
      { g.surprise with alpha := decUint8 g.surprise.alpha } := by
  have hpre := preSurprise_eq h w hh now g
  rw [update_eq]
  unfold surpriseStep
  rw [hpre, if_pos halive, if_neg (by omega)]

/-- One tick on a live surprise whose fade counter is zero. -/
theorem update_expire (h : CollisionHandler) (sp : Game → Game) (w : World)
    (hh : ∀ t o i g2, (h t o i g2).surprise = g2.surprise) (now : Nat) (g : Game)
    (halive : g.surprise.alive = true) (hzero : g.surprise.alpha = 0) :
    (update h sp w now g).surprise =
      { g.surprise with alive := false, spawning := false } := by
  have hpre := preSurprise_eq h w hh now g
  rw [update_eq]
  unfold surpriseStep
  rw [hpre, if_pos halive, if_pos (by omega)]

theorem updates_cons (h : CollisionHandler) (sp : Game → Game) (w : World) (now : Nat)
    (rest : List Nat) (g : Game) :
    updates h sp w (now :: rest) g = updates h sp w rest (update h sp w now g) := rfl

/-- The first `alpha` ticks of a fade only count `alpha` down. -/
theorem fade_counts_down (h : CollisionHandler) (sp : Game → Game) (w : World)
    (hh : ∀ t o i g2, (h t o i g2).surprise = g2.surprise) (clock : List Nat) :
    ∀ g : Game, g.surprise.alive = true → g.surprise.alpha ≤ 255 →
      clock.length ≤ g.surprise.alpha →
      (updates h sp w clock g).surprise =
        { g.surprise with alpha := g.surprise.alpha - clock.length } := by
  induction clock with
  | nil => intro g _ _ _; rfl
  | cons now rest ih =>
    intro g halive hle hlen
    simp only [List.length_cons] at hlen
    have hstep := update_fade h sp w hh now g halive (by omega)
    rw [decUint8_pos _ (by omega) hle] at hstep
    rw [updates_cons, ih (update h sp w now g) (by rw [hstep]; exact halive)
      (by rw [hstep]; simp only; omega) (by rw [hstep]; simp only; omega), hstep]
    simp only [List.length_cons]
    congr 1
    omega

/-- The tick after the counter reached zero makes the surprise dormant. -/
theorem fade_ends (h : CollisionHandler) (sp : Game → Game) (w : World)
    (hh : ∀ t o i g2, (h t o i g2).surprise = g2.surprise) (clock : List Nat) :
    ∀ g : Game, g.surprise.alive = true → g.surprise.alpha ≤ 255 →
      clock.length = g.surprise.alpha + 1 →
      (updates h sp w clock g).surprise =
        { g.surprise with alpha := 0, alive := false, spawning := false } := by
  induction clock with
  | nil => intro g _ _ hlen; simp at hlen
  | cons now rest ih =>
    intro g halive hle hlen
    simp only [List.length_cons] at hlen
    by_cases hz : g.surprise.alpha = 0
    · have hrest : rest = [] := List.length_eq_zero.mp (by omega)
      subst hrest
      have hstep := update_expire h sp w hh now g halive hz
      rw [updates_cons]
      show (update h sp w now g).surprise = _
      rw [hstep, ← hz]
    · have hstep := update_fade h sp w hh now g halive (by omega)
      rw [decUint8_pos _ (by omega) hle] at hstep
      rw [updates_cons, ih (update h sp w now g) (by rw [hstep]; exact halive)
        (by rw [hstep]; simp only; omega) (by rw [hstep]; simp only; omega), hstep]

/-- C10: fade cycle. From a surprise with `alive = true`, `spawning = true` and
`alpha = a`, `a` in `0..255`, after `n ≤ a` calls of `update` the counter is `a - n` (one less
per tick, never below zero) and the surprise is still alive and spawning; after exactly
`a + 1` calls it is dormant (`alive = false`, `spawning = false`, `alpha = 0`); `x`, `y`,
`lastSpawnTime` and `nextSpawnTime` keep their values throughout. The collision handler is one
that leaves the surprise alone. -/
theorem fade_cycle (h : CollisionHandler) (sp : Game → Game) (w : World)
    (hh : ∀ t o i g2, (h t o i g2).surprise = g2.surprise) (g : Game) (a : Nat)
    (ha : a ≤ 255) (halive : g.surprise.alive = true) (hspawning : g.surprise.spawning = true)
    (halpha : g.surprise.alpha = a) :
    (∀ clock : List Nat, clock.length ≤ a →
      (updates h sp w clock g).surprise =
        { x := g.surprise.x, y := g.surprise.y, alpha := a - clock.length, alive := true,
          spawning := true, lastSpawnTime := g.surprise.lastSpawnTime,
          nextSpawnTime := g.surprise.nextSpawnTime }) ∧
    (∀ clock : List Nat, clock.length = a + 1 →
      (updates h sp w clock g).surprise =
        { x := g.surprise.x, y := g.surprise.y, alpha := 0, alive := false,
          spawning := false, lastSpawnTime := g.surprise.lastSpawnTime,
          nextSpawnTime := g.surprise.nextSpawnTime }) := by
  subst halpha
  constructor
  · intro clock hlen
    rw [fade_counts_down h sp w hh clock g halive ha hlen]
    simp only [halive, hspawning]
  · intro clock hlen
    rw [fade_ends h sp w hh clock g halive ha hlen]

theorem fade_cycle_witness :
    (updates sampleHandler sampleSpawn { gravity := 1 / 2 } [10, 20]
        (sampleGame (sampleSurprise true true 2))).surprise = sampleSurprise true true 0 ∧
    (updates sampleHandler sampleSpawn { gravity := 1 / 2 } [10, 20, 30]
        (sampleGame (sampleSurprise true true 2))).surprise = sampleSurprise false false 0 :=
  ⟨(fade_cycle sampleHandler sampleSpawn { gravity := 1 / 2 } sampleHandler_surprise
      (sampleGame (sampleSurprise true true 2)) 2 (by decide) rfl rfl rfl).1 [10, 20]
      (by decide),
    (fade_cycle sampleHandler sampleSpawn { gravity := 1 / 2 } sampleHandler_surprise
      (sampleGame (sampleSurprise true true 2)) 2 (by decide) rfl rfl rfl).2 [10, 20, 30]
      (by decide)⟩

/-! ## The spawning latch -/

theorem surpriseStep_latchInv (sp : Game → Game) (now : Nat) (g : Game)
    (hsp : ∀ g2, (sp g2).surprise.alive = true ∧ (sp g2).surprise.spawning = true)
    (hinv : LatchInv g.surprise) : LatchInv (surpriseStep sp now g).surprise := by
  unfold LatchInv at *
  unfold surpriseStep
  split
  · rename_i halive
    split
    · rename_i hz
      exact ⟨rfl, fun _ => by simp only; omega⟩
    · refine ⟨hinv.1, fun hd => ?_⟩
      simp only at hd
      rw [halive] at hd
      exact absurd hd (by decide)
  · split
    · have := hsp g
      refine ⟨by rw [this.1, this.2], fun hd => ?_⟩
      rw [this.1] at hd
      exact absurd hd (by decide)
    · exact hinv

theorem update_latchInv (h : CollisionHandler) (sp : Game → Game) (w : World)
    (hh : ∀ t o i g2, (h t o i g2).surprise = g2.surprise)
    (hsp : ∀ g2, (sp g2).surprise.alive = true ∧ (sp g2).surprise.spawning = true)
    (now : Nat) (g : Game) (hinv : LatchInv g.surprise) :
    LatchInv (update h sp w now g).surprise := by
  rw [update_eq]
  apply surpriseStep_latchInv sp now _ hsp
  rw [preSurprise_eq h w hh now g]
  exact hinv

theorem updates_latchInv (h : CollisionHandler) (sp : Game → Game) (w : World)
    (hh : ∀ t o i g2, (h t o i g2).surprise = g2.surprise)
    (hsp : ∀ g2, (sp g2).surprise.alive = true ∧ (sp g2).surprise.spawning = true)
    (clock : List Nat) (g : Game) (hinv : LatchInv g.surprise) :
    LatchInv (updates h sp w clock g).surprise := by
  induction clock generalizing g with
  | nil => exact hinv
  | cons now rest ih =>
    rw [updates_cons]
    exact ih _ (update_latchInv h sp w hh hsp now g hinv)

/-- C9, as the code has it: in every state that `update` calls reach from a freshly spawned
surprise (`alive = true`, `spawning = true`, `alpha = a > 0`), `spawning` equals `alive`; it is
true in every such state with `alpha > 0`, and false only in states with `alpha = 0`. The
state reached after exactly `a` calls has `alpha = 0` with `spawning` still true: the latch is
cleared by the call after that. The collision handler leaves the surprise alone and
`spawnSurprise` sets `alive` and `spawning`. -/
theorem spawning_follows_alive (h : CollisionHandler) (sp : Game → Game) (w : World)
    (hh : ∀ t o i g2, (h t o i g2).surprise = g2.surprise)
    (hsp : ∀ g2, (sp g2).surprise.alive = true ∧ (sp g2).surprise.spawning = true)
    (g : Game) (a : Nat) (ha0 : 0 < a) (ha : a ≤ 255)
    (halive : g.surprise.alive = true) (hspawning : g.surprise.spawning = true)
    (halpha : g.surprise.alpha = a) :
    (∀ clock : List Nat,
      (updates h sp w clock g).surprise.spawning = (updates h sp w clock g).surprise.alive ∧
      (0 < (updates h sp w clock g).surprise.alpha →
        (updates h sp w clock g).surprise.spawning = true) ∧
      ((updates h sp w clock g).surprise.spawning = false →
        (updates h sp w clock g).surprise.alpha = 0)) ∧
    (∀ clock : List Nat, clock.length = a →
      (updates h sp w clock g).surprise.alpha = 0 ∧
      (updates h sp w clock g).surprise.spawning = true) := by
  have h0 : LatchInv g.surprise := by
    refine ⟨by rw [halive, hspawning], fun hd => ?_⟩
    rw [halive] at hd
    exact absurd hd (by decide)
  constructor
  · intro clock
    have hinv := updates_latchInv h sp w hh hsp clock g h0
    unfold LatchInv at hinv
    refine ⟨hinv.1, fun hpos => ?_, fun hf => hinv.2 (by rw [← hinv.1]; exact hf)⟩
    rw [hinv.1]
    by_contra hd
    have := hinv.2 (by simpa using hd)
    omega
  · intro clock hlen
    subst halpha
    rw [fade_counts_down h sp w hh clock g halive ha (by omega)]
    exact ⟨by show g.surprise.alpha - clock.length = 0; omega, hspawning⟩

theorem sampleSpawn_alive (g : Game) :
    (sampleSpawn g).surprise.alive = true ∧ (sampleSpawn g).surprise.spawning = true :=
  ⟨rfl, rfl⟩

theorem spawning_follows_alive_witness :
    (updates sampleHandler sampleSpawn { gravity := 1 / 2 } [10, 20, 30, 7000]
        (sampleGame (sampleSurprise true true 2))).surprise.spawning =
      (updates sampleHandler sampleSpawn { gravity := 1 / 2 } [10, 20, 30, 7000]
        (sampleGame (sampleSurprise true true 2))).surprise.alive :=
  ((spawning_follows_alive sampleHandler sampleSpawn { gravity := 1 / 2 }
    sampleHandler_surprise sampleSpawn_alive (sampleGame (sampleSurprise true true 2)) 2
    (by decide) (by decide) rfl rfl rfl).1 [10, 20, 30, 7000]).1

/-- C9 fails as stated: from a surprise spawned with `alpha = 1`, one `update` call reaches a
state with `alpha = 0` in which `spawning` is still true. -/
theorem spawning_true_at_alpha_zero :
    (update sampleHandler sampleSpawn { gravity := 1 / 2 } 10
        (sampleGame (sampleSurprise true true 1))).surprise.alpha = 0 ∧
    (update sampleHandler sampleSpawn { gravity := 1 / 2 } 10
        (sampleGame (sampleSurprise true true 1))).surprise.spawning = true := by
  have hstep := update_fade sampleHandler sampleSpawn { gravity := 1 / 2 }
    sampleHandler_surprise 10 (sampleGame (sampleSurprise true true 1)) rfl (by decide)
  rw [hstep]
  exact ⟨rfl, rfl⟩

/-! ## The ball loop -/

theorem ballBodyP2_p1balls (h : CollisionHandler) (w : World)
    (hno : ∀ t o j, KeepsBalls (h t o j)) (i : Nat) (g : Game) :
    (ballBodyP2 h w i g).p1.balls = g.p1.balls := by
  unfold ballBodyP2
  split
  · split
    · rfl
    · simp only [(hno _ _ _ _).1]
      rfl
  · rfl

theorem ballBodyP2_other (h : CollisionHandler) (w : World)
    (hno : ∀ t o j, KeepsBalls (h t o j)) (i j : Nat) (hij : i ≠ j) (g : Game) :
    (ballBodyP2 h w j g).p2.balls i = g.p2.balls i := by
  unfold ballBodyP2
  split
  · split
    · simp [setBall2, Function.update_noteq hij]
    · simp only [(hno _ _ _ _).2]
      simp [setBall2, Function.update_noteq hij]
  · rfl

theorem ballBodyP2_alive (h : CollisionHandler) (w : World)
    (hno : ∀ t o j, KeepsBalls (h t o j)) (i : Nat) (g : Game)
    (halive : (g.p2.balls i).alive = true) (hy : (g.p2.balls i).y ≤ SCREEN_HEIGHT) :
    (ballBodyP2 h w i g).p2.balls i = integrate w (g.p2.balls i) := by
  unfold ballBodyP2
  rw [if_pos halive, if_neg (not_lt.mpr hy)]
  simp only [(hno _ _ _ _).2]
  simp [setBall2]

/-- An iteration at another index leaves the balls at index `i` as they are. -/
theorem ballBody_other (h : CollisionHandler) (w : World)
    (hno : ∀ t o j, KeepsBalls (h t o j)) (i j : Nat) (hij : i ≠ j) (g : Game) :
    (ballBody h w j g).p1.balls i = g.p1.balls i ∧
    (ballBody h w j g).p2.balls i = g.p2.balls i := by
  unfold ballBody
  split
  · split
    · simp [setBall1, Function.update_noteq hij]
    · rw [ballBodyP2_p1balls h w hno, ballBodyP2_other h w hno i j hij]
      simp only [(hno _ _ _ _).1, (hno _ _ _ _).2]
      simp [setBall1, Function.update_noteq hij]
  · rw [ballBodyP2_p1balls h w hno, ballBodyP2_other h w hno i j hij]
    exact ⟨rfl, rfl⟩

/-- The iteration at index `i` integrates the ball of player 1 that is alive and not below
the screen. -/
theorem ballBody_p1 (h : CollisionHandler) (w : World)
    (hno : ∀ t o j, KeepsBalls (h t o j)) (i : Nat) (g : Game)
    (halive : (g.p1.balls i).alive = true) (hy : (g.p1.balls i).y ≤ SCREEN_HEIGHT) :
    (ballBody h w i g).p1.balls i = integrate w (g.p1.balls i) := by
  unfold ballBody
  rw [if_pos halive, if_neg (not_lt.mpr hy), ballBodyP2_p1balls h w hno]
  simp only [(hno _ _ _ _).1]
  simp [setBall1]

/-- The iteration at index `i` does not remove the ball of player 2 that is alive and not
below the screen. -/
theorem ballBody_p2_alive (h : CollisionHandler) (w : World)
    (hno : ∀ t o j, KeepsBalls (h t o j)) (i : Nat) (g : Game)
    (halive : (g.p2.balls i).alive = true) (hy : (g.p2.balls i).y ≤ SCREEN_HEIGHT) :
    ((ballBody h w i g).p2.balls i).alive = true := by
  unfold ballBody
  split
  · split
    · exact halive
    · have e : (h PlayerId.P2 PlayerId.P1 i (h PlayerId.P1 PlayerId.P1 i
          (setBall1 i (integrate w (g.p1.balls i)) g))).p2.balls = g.p2.balls := by
        simp only [(hno _ _ _ _).2]
        rfl
      rw [ballBodyP2_alive h w hno i _ (by rw [e]; exact halive) (by rw [e]; exact hy), e]
      exact halive
  · rw [ballBodyP2_alive h w hno i g halive hy]
    exact halive

theorem ballLoopUpTo_before (h : CollisionHandler) (w : World)
    (hno : ∀ t o j, KeepsBalls (h t o j)) (i n : Nat) (hn : n ≤ i) (g : Game) :
    (ballLoopUpTo h w n g).p1.balls i = g.p1.balls i ∧
    (ballLoopUpTo h w n g).p2.balls i = g.p2.balls i := by
  induction n with
  | zero => exact ⟨rfl, rfl⟩
  | succ n ih =>
    have hb := ballBody_other h w hno i n (by omega) (ballLoopUpTo h w n g)
    have hi := ih (by omega)
    rw [ballLoopUpTo_succ, hb.1, hb.2]
    exact hi

/-- After the loop, a ball of player 1 that was alive and not below the screen has been
integrated exactly once. -/
theorem ballLoopUpTo_p1 (h : CollisionHandler) (w : World)
    (hno : ∀ t o j, KeepsBalls (h t o j)) (i n : Nat) (hn : i < n) (g : Game)
    (halive : (g.p1.balls i).alive = true) (hy : (g.p1.balls i).y ≤ SCREEN_HEIGHT) :
    (ballLoopUpTo h w n g).p1.balls i = integrate w (g.p1.balls i) := by
  induction n with
  | zero => omega
  | succ n ih =>
    rw [ballLoopUpTo_succ]
    by_cases hni : n = i
    · subst hni
      have hb := (ballLoopUpTo_before h w hno n n (le_refl n) g).1
      rw [ballBody_p1 h w hno n _ (by rw [hb]; exact halive) (by rw [hb]; exact hy), hb]
    · rw [(ballBody_other h w hno i n (Ne.symm hni) _).1]
      exact ih (by omega)

theorem ballLoopUpTo_p2_alive (h : CollisionHandler) (w : World)
    (hno : ∀ t o j, KeepsBalls (h t o j)) (i n : Nat) (g : Game)
    (halive : (g.p2.balls i).alive = true) (hy : (g.p2.balls i).y ≤ SCREEN_HEIGHT) :
    ((ballLoopUpTo h w n g).p2.balls i).alive = true := by
  induction n with
  | zero => exact halive
  | succ n ih =>
    rw [ballLoopUpTo_succ]
    by_cases hni : n = i
    · subst hni
      have hb := (ballLoopUpTo_before h w hno n n (le_refl n) g).2
      exact ballBody_p2_alive h w hno n _ (by rw [hb]; exact halive) (by rw [hb]; exact hy)
    · rw [(ballBody_other h w hno i n (Ne.symm hni) _).2]
      exact ih

theorem ballLoopUpTo_p1_alive (h : CollisionHandler) (w : World)
    (hno : ∀ t o j, KeepsBalls (h t o j)) (i n : Nat) (g : Game)
    (halive : (g.p1.balls i).alive = true) (hy : (g.p1.balls i).y ≤ SCREEN_HEIGHT) :
    ((ballLoopUpTo h w n g).p1.balls i).alive = true := by
  by_cases hn : i < n
  · rw [ballLoopUpTo_p1 h w hno i n hn g halive hy, integrate_alive]
    exact halive
  · rw [(ballLoopUpTo_before h w hno i n (by omega) g).1]
    exact halive

theorem economyStep_balls (now : Nat) (g : Game) :
    (economyStep now g).p1.balls = g.p1.balls ∧ (economyStep now g).p2.balls = g.p2.balls := by
  unfold economyStep
  split <;> exact ⟨rfl, rfl⟩

theorem surpriseStep_balls (sp : Game → Game) (hsp : KeepsBalls sp) (now : Nat) (g : Game) :
    (surpriseStep sp now g).p1.balls = g.p1.balls ∧
    (surpriseStep sp now g).p2.balls = g.p2.balls := by
  unfold surpriseStep
  split
  · split <;> exact ⟨rfl, rfl⟩
  · split
    · exact hsp g
    · exact ⟨rfl, rfl⟩

/-- C7: with collision handling set aside (the handler and the spawn function leave the pools
alone), `update` never removes a live ball whose `y` is at most `SCREEN_HEIGHT` at the start
of the tick, in either pool, at any index and whatever its `x`: a live ball that is dead after
the call had `y > SCREEN_HEIGHT`. -/
theorem floor_only_removal (h : CollisionHandler) (sp : Game → Game) (w : World) (now : Nat)
    (g : Game) (i : Nat) (hno : ∀ t o j, KeepsBalls (h t o j)) (hsp : KeepsBalls sp) :
    ((g.p1.balls i).alive = true → (g.p1.balls i).y ≤ SCREEN_HEIGHT →
      ((update h sp w now g).p1.balls i).alive = true) ∧
    ((g.p2.balls i).alive = true → (g.p2.balls i).y ≤ SCREEN_HEIGHT →
      ((update h sp w now g).p2.balls i).alive = true) ∧
    ((g.p1.balls i).alive = true → ((update h sp w now g).p1.balls i).alive = false →
      (g.p1.balls i).y > SCREEN_HEIGHT) ∧
    ((g.p2.balls i).alive = true → ((update h sp w now g).p2.balls i).alive = false →
      (g.p2.balls i).y > SCREEN_HEIGHT) := by
  have he := economyStep_balls now g
  have hs := surpriseStep_balls sp hsp now (ballLoop h w (economyStep now g))
  have k1 : (g.p1.balls i).alive = true → (g.p1.balls i).y ≤ SCREEN_HEIGHT →
      ((update h sp w now g).p1.balls i).alive = true := by
    intro halive hy
    rw [update_eq, hs.1]
    exact ballLoopUpTo_p1_alive h w hno i MAX_BALLS _ (by rw [he.1]; exact halive)
      (by rw [he.1]; exact hy)
  have k2 : (g.p2.balls i).alive = true → (g.p2.balls i).y ≤ SCREEN_HEIGHT →
      ((update h sp w now g).p2.balls i).alive = true := by
    intro halive hy
    rw [update_eq, hs.2]
    exact ballLoopUpTo_p2_alive h w hno i MAX_BALLS _ (by rw [he.2]; exact halive)
      (by rw [he.2]; exact hy)
  refine ⟨k1, k2, fun halive hdead => ?_, fun halive hdead => ?_⟩
  · by_contra hy
    rw [k1 halive (not_lt.mp hy)] at hdead
    exact absurd hdead (by decide)
  · by_contra hy
    rw [k2 halive (not_lt.mp hy)] at hdead
    exact absurd hdead (by decide)

theorem sampleHandler_keepsBalls (t o : PlayerId) (j : Nat) : KeepsBalls (sampleHandler t o j) := by
  intro g
  cases t <;> exact ⟨rfl, rfl⟩

theorem sampleSpawn_keepsBalls : KeepsBalls sampleSpawn := fun _ => ⟨rfl, rfl⟩

theorem floor_only_removal_witness :
    (edgeGame.p1.balls 3).alive = true ∧ (edgeGame.p1.balls 3).y ≤ SCREEN_HEIGHT ∧
    (edgeGame.p1.balls 3).x < 0 ∧
    ((update sampleHandler sampleSpawn { gravity := 1 / 2 } 0 edgeGame).p1.balls 3).alive
      = true :=
  ⟨rfl, by decide, by decide,
    (floor_only_removal sampleHandler sampleSpawn { gravity := 1 / 2 } 0 edgeGame 3
      sampleHandler_keepsBalls sampleSpawn_keepsBalls).1 rfl (by decide)⟩

/-- With collision handling set aside, `update` integrates once every ball of player 1 that
is alive and not below the screen. -/
theorem update_p1_integrated (h : CollisionHandler) (sp : Game → Game) (w : World) (now : Nat)
    (g : Game) (i : Nat) (hi : i < MAX_BALLS) (hno : ∀ t o j, KeepsBalls (h t o j))
    (hsp : KeepsBalls sp) (halive : (g.p1.balls i).alive = true)
    (hy : (g.p1.balls i).y ≤ SCREEN_HEIGHT) :
    (update h sp w now g).p1.balls i = integrate w (g.p1.balls i) := by
  have he := economyStep_balls now g
  rw [update_eq, (surpriseStep_balls sp hsp now _).1]
  unfold ballLoop
  rw [ballLoopUpTo_p1 h w hno i MAX_BALLS hi _ (by rw [he.1]; exact halive)
    (by rw [he.1]; exact hy), he.1]

/-! ## The ball loop with a handler that consumes balls -/

/-- Multiples of one half with at most 24 significant bits are binary32 values. -/
theorem roundF32_halves (m : ℤ) (hm : |m| < 2 ^ 24) : roundF32 ((m : ℚ) * (1 / 2)) = m * (1 / 2) := by
  have h := roundF32_dyadic m (-1) hm (by norm_num)
  rw [zpow_neg, zpow_one] at h
  simpa using h


/-! ## Rounding error -/

theorem roundHalfEven_error (r : ℚ) : |(roundHalfEven r : ℚ) - r| ≤ 1 / 2 := by
  have h1 : (⌊r⌋ : ℚ) ≤ r := Int.floor_le r
  have h2 : r < (⌊r⌋ : ℚ) + 1 := Int.lt_floor_add_one r
  unfold roundHalfEven
  split
  · rw [abs_le]
    constructor <;> linarith
  · split
    · rw [abs_le]
      push_cast
      constructor <;> linarith
    · have h3 : r - ⌊r⌋ = 1 / 2 := by
        apply le_antisymm <;> linarith
      split
      · rw [abs_le]
        constructor <;> linarith
      · rw [abs_le]
        push_cast
        constructor <;> linarith

theorem roundF32_zero : roundF32 0 = 0 := by
  simp [roundF32, roundHalfEven]

/-- Rounding moves a value by at most half a unit in the last place. -/
theorem roundF32_error_ulp (q : ℚ) : |roundF32 q - q| ≤ 2 ^ ulpExp q / 2 := by
  have hpos : (0 : ℚ) < 2 ^ ulpExp q := zpow_pos (by norm_num) _
  have h := roundHalfEven_error (q / 2 ^ ulpExp q)
  have e : roundF32 q - q = ((roundHalfEven (q / 2 ^ ulpExp q) : ℚ) - q / 2 ^ ulpExp q) *
      2 ^ ulpExp q := by
    unfold roundF32
    field_simp
  rw [e, abs_mul, abs_of_pos hpos]
  calc |(roundHalfEven (q / 2 ^ ulpExp q) : ℚ) - q / 2 ^ ulpExp q| * 2 ^ ulpExp q
      ≤ 1 / 2 * 2 ^ ulpExp q := mul_le_mul_of_nonneg_right h hpos.le
    _ = 2 ^ ulpExp q / 2 := by ring

/-- Rounding error of binary32: relative error at most `2 ^ (-24)` in the normal range,
absolute error at most `2 ^ (-150)` in the subnormal range. -/
theorem roundF32_error (q : ℚ) :
    |roundF32 q - q| ≤ max (|q| / 2 ^ 24) (1 / 2 ^ 150) := by
  by_cases h0 : q = 0
  · subst h0
    rw [roundF32_zero]
    simp
  have hpos : (0 : ℚ) < |q| := abs_pos.mpr h0
  have hlog : ((2 : ℕ) : ℚ) ^ Int.log 2 |q| ≤ |q| := Int.zpow_log_le_self (by norm_num) hpos
  refine le_trans (roundF32_error_ulp q) ?_
  unfold ulpExp
  rcases le_total (Int.log 2 |q| - 23) (-149) with hc | hc
  · rw [max_eq_right hc]
    apply le_max_of_le_right
    rw [zpow_neg]
    norm_num
  · rw [max_eq_left hc]
    apply le_max_of_le_left
    rw [zpow_sub₀ (by norm_num : (2 : ℚ) ≠ 0)]
    have h2 : (2 : ℚ) ^ Int.log 2 |q| ≤ |q| := by simpa using hlog
    have e : (2 : ℚ) ^ Int.log 2 |q| / 2 ^ (23 : ℤ) / 2 = 2 ^ Int.log 2 |q| / 2 ^ 24 := by
      norm_num
      ring
    rw [e]
    exact div_le_div_of_nonneg_right h2 (by norm_num)

/-- Below `2 ^ E`, with `E` in the normal range, rounding moves a value by at most
`2 ^ (E - 25)`. -/
theorem roundF32_error_below (q : ℚ) (E : ℤ) (hE : -125 ≤ E) (hq : |q| < 2 ^ E) :
    |roundF32 q - q| ≤ 2 ^ (E - 25) := by
  by_cases h0 : q = 0
  · subst h0
    rw [roundF32_zero]
    simp
    positivity
  have hpos : (0 : ℚ) < |q| := abs_pos.mpr h0
  have hlog : Int.log 2 |q| < E :=
    (Int.lt_zpow_iff_log_lt (by norm_num : 1 < 2) hpos).mp (by simpa using hq)
  have hu : ulpExp q ≤ E - 24 := by
    unfold ulpExp
    apply max_le <;> omega
  refine le_trans (roundF32_error_ulp q) ?_
  have h1 : (2 : ℚ) ^ ulpExp q ≤ 2 ^ (E - 24) := zpow_le_zpow_right₀ (by norm_num) hu
  have e : (2 : ℚ) ^ (E - 25) = 2 ^ (E - 24) / 2 := by
    rw [show E - 25 = E - 24 - 1 by ring, zpow_sub₀ (by norm_num : (2 : ℚ) ≠ 0), zpow_one]
  rw [e]
  exact div_le_div_of_nonneg_right h1 (by norm_num)

/-! ## Velocity after `n` integrations -/

theorem integrate_iterate_vy_succ (w : World) (b : Ball) (k : Nat) :
    ((integrate w)^[k + 1] b).vy = roundF32 (((integrate w)^[k] b).vy + w.gravity) := by
  rw [Function.iterate_succ_apply', integrate_vy]

/-- The stored vertical velocity stays within the sum of the rounding errors of the ticks. -/
theorem velocity_error_sum (w : World) (b : Ball) (n : Nat) :
    |((integrate w)^[n] b).vy - (b.vy + n * w.gravity)| ≤
      ∑ k in Finset.range n,
        max (|((integrate w)^[k] b).vy + w.gravity| / 2 ^ 24) (1 / 2 ^ 150) := by
  induction n with
  | zero => simp
  | succ n ih =>
    rw [Finset.sum_range_succ, integrate_iterate_vy_succ]
    have herr := roundF32_error (((integrate w)^[n] b).vy + w.gravity)
    have e : roundF32 (((integrate w)^[n] b).vy + w.gravity) - (b.vy + ((n + 1 : ℕ) : ℚ) * w.gravity)
        = (roundF32 (((integrate w)^[n] b).vy + w.gravity) - (((integrate w)^[n] b).vy + w.gravity))
          + (((integrate w)^[n] b).vy - (b.vy + n * w.gravity)) := by
      push_cast
      ring
    rw [e]
    calc |(roundF32 (((integrate w)^[n] b).vy + w.gravity) - (((integrate w)^[n] b).vy + w.gravity))
          + (((integrate w)^[n] b).vy - (b.vy + n * w.gravity))|
        ≤ |roundF32 (((integrate w)^[n] b).vy + w.gravity) - (((integrate w)^[n] b).vy + w.gravity)|
          + |((integrate w)^[n] b).vy - (b.vy + n * w.gravity)| := abs_add _ _
      _ ≤ _ := by linarith

/-- While the exact velocities stay below `2 ^ E` with room for the rounding, every sum is
below `2 ^ E` and the stored velocity after `k` ticks is within `k * 2 ^ (E - 25)` of the
exact one. -/
theorem velocity_error_below (w : World) (b : Ball) (n : Nat) (E : ℤ) (hE : -125 ≤ E)
    (hroom : ∀ k : Nat, k ≤ n → |b.vy + k * w.gravity| + n * 2 ^ (E - 25) ≤ 2 ^ E) :
    ∀ k : Nat, k ≤ n →
      |((integrate w)^[k] b).vy - (b.vy + k * w.gravity)| ≤ k * 2 ^ (E - 25) ∧
      (k < n → |((integrate w)^[k] b).vy + w.gravity| < 2 ^ E) := by
  have hT : (0 : ℚ) < 2 ^ (E - 25) := zpow_pos (by norm_num) _
  have hsum : ∀ k : Nat, k < n →
      |((integrate w)^[k] b).vy - (b.vy + k * w.gravity)| ≤ k * 2 ^ (E - 25) →
      |((integrate w)^[k] b).vy + w.gravity| < 2 ^ E := by
    intro k hk hdev
    have hr := hroom (k + 1) (by omega)
    have e : ((integrate w)^[k] b).vy + w.gravity
        = (((integrate w)^[k] b).vy - (b.vy + k * w.gravity)) + (b.vy + ((k + 1 : ℕ) : ℚ) * w.gravity) := by
      push_cast
      ring
    have hkn : ((k : ℚ) + 1) ≤ n := by exact_mod_cast hk
    have h1 : (k : ℚ) * 2 ^ (E - 25) < n * 2 ^ (E - 25) := by nlinarith
    calc |((integrate w)^[k] b).vy + w.gravity|
        ≤ |((integrate w)^[k] b).vy - (b.vy + k * w.gravity)|
          + |b.vy + ((k + 1 : ℕ) : ℚ) * w.gravity| := by
          rw [e]
          exact abs_add _ _
      _ < 2 ^ E := by linarith
  intro k
  induction k with
  | zero =>
    intro _
    refine ⟨by simp, fun hk => hsum 0 hk (by simp)⟩
  | succ k ih =>
    intro hk
    have ihk := ih (by omega)
    have hlt := ihk.2 (by omega)
    have herr := roundF32_error_below _ E hE hlt
    have hdev : |((integrate w)^[k + 1] b).vy - (b.vy + ((k + 1 : ℕ) : ℚ) * w.gravity)|
        ≤ ((k + 1 : ℕ) : ℚ) * 2 ^ (E - 25) := by
      rw [integrate_iterate_vy_succ]
      have e : roundF32 (((integrate w)^[k] b).vy + w.gravity) - (b.vy + ((k + 1 : ℕ) : ℚ) * w.gravity)
          = (roundF32 (((integrate w)^[k] b).vy + w.gravity) - (((integrate w)^[k] b).vy + w.gravity))
            + (((integrate w)^[k] b).vy - (b.vy + k * w.gravity)) := by
        push_cast
        ring
      rw [e]
      calc |(roundF32 (((integrate w)^[k] b).vy + w.gravity) - (((integrate w)^[k] b).vy + w.gravity))
            + (((integrate w)^[k] b).vy - (b.vy + k * w.gravity))|
          ≤ |roundF32 (((integrate w)^[k] b).vy + w.gravity) - (((integrate w)^[k] b).vy + w.gravity)|
            + |((integrate w)^[k] b).vy - (b.vy + k * w.gravity)| := abs_add _ _
        _ ≤ ((k + 1 : ℕ) : ℚ) * 2 ^ (E - 25) := by
          push_cast
          linarith [ihk.1]
    exact ⟨hdev, fun hk2 => hsum (k + 1) hk2 hdev⟩

theorem inRangeF32_of_lt (q : ℚ) (E : ℤ) (hE : E ≤ 127) (hq : |q| < 2 ^ E) : InRangeF32 q := by
  unfold InRangeF32
  have h1 : (2 : ℚ) ^ E ≤ 2 ^ (127 : ℤ) := zpow_le_zpow_right₀ (by norm_num) hE
  have h2 : (2 : ℚ) ^ (127 : ℤ) < 2 ^ 128 - 2 ^ 103 := by norm_num
  linarith

/-- C6: gravity integration. After `n` integrations the horizontal velocity is still `vx0` and
the vertical velocity equals `vy0 + n * gravity` within floating-point tolerance: the stored
`float` is off by at most the sum of the rounding errors of the `n` additions (relative
`2 ^ (-24)` each, `2 ^ (-150)` in the subnormal range), hence by at most `n * 2 ^ (E - 25)`
while the exact velocities stay below `2 ^ E` with that much room, and not at all when every
partial sum is a binary32 value. -/
theorem gravity_integration (w : World) (b : Ball) (n : Nat) :
    ((integrate w)^[n] b).vx = b.vx ∧
    ((∀ k : Nat, k < n → InRangeF32 (((integrate w)^[k] b).vy + w.gravity)) →
      |((integrate w)^[n] b).vy - (b.vy + n * w.gravity)| ≤
        ∑ k in Finset.range n,
          max (|((integrate w)^[k] b).vy + w.gravity| / 2 ^ 24) (1 / 2 ^ 150)) ∧
    (∀ E : ℤ, -125 ≤ E → E ≤ 127 →
      (∀ k : Nat, k ≤ n → |b.vy + k * w.gravity| + n * 2 ^ (E - 25) ≤ 2 ^ E) →
      (∀ k : Nat, k < n → InRangeF32 (((integrate w)^[k] b).vy + w.gravity)) ∧
      |((integrate w)^[n] b).vy - (b.vy + n * w.gravity)| ≤ n * 2 ^ (E - 25)) ∧
    ((∀ k : Nat, k < n → InRangeF32 (b.vy + (k + 1) * w.gravity) ∧
        roundF32 (b.vy + (k + 1) * w.gravity) = b.vy + (k + 1) * w.gravity) →
      ((integrate w)^[n] b).vy = b.vy + n * w.gravity) := by
  refine ⟨integrate_iterate_vx w n b, fun _ => velocity_error_sum w b n, ?_, ?_⟩
  · intro E hE hE2 hroom
    have h := velocity_error_below w b n E hE hroom
    exact ⟨fun k hk => inRangeF32_of_lt _ E hE2 ((h k (by omega)).2 hk), (h n (le_refl n)).1⟩
  · intro hrep
    exact (integrate_iterate_exact w b n (fun k hk => (hrep k hk).2)).1

theorem gravity_integration_witness :
    |((integrate { gravity := 1 / 2 })^[100] (liveBall 0 0 20 tenthF32)).vy
        - (tenthF32 + (100 : ℕ) * (1 / 2))| ≤ (100 : ℕ) * 2 ^ ((7 : ℤ) - 25) ∧
    ((integrate { gravity := 1 / 2 })^[3] (liveBall 0 0 20 0)).vy = 3 / 2 := by
  constructor
  · refine ((gravity_integration { gravity := 1 / 2 } (liveBall 0 0 20 tenthF32) 100).2.2.1 7
      (by norm_num) (by norm_num) (fun k hk => ?_)).2
    have hk2 : (k : ℚ) ≤ 100 := by exact_mod_cast hk
    have hk0 : (0 : ℚ) ≤ k := Nat.cast_nonneg k
    have hpos : (0 : ℚ) ≤ tenthF32 + (k : ℚ) * (1 / 2) := by
      unfold tenthF32
      positivity
    show |tenthF32 + (k : ℚ) * (1 / 2)| + ((100 : ℕ) : ℚ) * 2 ^ ((7 : ℤ) - 25) ≤ 2 ^ (7 : ℤ)
    rw [abs_of_nonneg hpos]
    have e : ((2 : ℚ) ^ ((7 : ℤ) - 25)) = 1 / 262144 := by
      rw [show (7 : ℤ) - 25 = -18 by norm_num, zpow_neg]
      norm_num
    rw [e]
    unfold tenthF32
    norm_num
    linarith
  · have h := (gravity_integration { gravity := 1 / 2 } (liveBall 0 0 20 0) 3).2.2.2
      (fun k hk => by
        have hr := roundF32_halves ((k : ℤ) + 1) (abs_lt.mpr ⟨by omega, by omega⟩)
        have hk2 : (k : ℚ) < 3 := by exact_mod_cast hk
        have hk0 : (0 : ℚ) ≤ k := Nat.cast_nonneg k
        simp only [liveBall]
        push_cast at hr
        rw [zero_add]
        refine ⟨?_, hr⟩
        unfold InRangeF32
        rw [abs_of_nonneg (by positivity)]
        norm_num
        linarith)
    rw [h]
    simp only [liveBall]
    norm_num

/-- Exact equality is not to be had for every start velocity, which is why the tolerance is
there: for the binary32 value `vy0` nearest to `0.1` and gravity `0.5` the sum `vy0 + gravity`
is not a binary32 value, and the stored velocity after one integration differs from it. -/
theorem gravity_integration_rounds :
    roundF32 tenthF32 = tenthF32 ∧
    ((integrate { gravity := 1 / 2 })^[1] (liveBall 0 0 20 tenthF32)).vy
      ≠ (liveBall 0 0 20 tenthF32).vy + (1 : Nat) * (1 / 2) := by
  refine ⟨tenthF32_representable, ?_⟩
  simp only [Function.iterate_succ, Function.iterate_zero, Function.comp_apply, id_eq,
    integrate_vy, liveBall, Nat.cast_one, one_mul]
  exact roundF32_tenth_add_half

/-! ## The skipped block of player 2 -/

/-- The ball loop on `skipGame`: the ball of player 1 in slot 0 is removed, and the `continue`
leaves the ball of player 2 in slot 0 untouched; no collision handler is called. -/
theorem skipGame_loop (h : CollisionHandler) (w : World) (y2 : Int) :
    ballLoop h w (skipGame y2) =
      setBall1 0 { liveBall 0 513 0 0 with alive := false } (skipGame y2) := by
  simp [ballLoop, ballLoopUpTo, MAX_BALLS, List.range, List.range.loop, ballBody, ballBodyP2,
    skipGame, samplePlayer, liveBall, deadBall, setBall1, setBall2, SCREEN_HEIGHT,
    Function.update]

theorem skipGame_update (h : CollisionHandler) (sp : Game → Game) (w : World) (y2 : Int) :
    (update h sp w 0 (skipGame y2)).p2.balls 0 = liveBall 100 y2 20 0 := by
  have he : economyStep 0 (skipGame y2) = skipGame y2 :=
    economyStep_pending 0 _ (by simp [skipGame, toUint32, SUPPLY_TIME])
  rw [update_eq, he, skipGame_loop]
  simp [surpriseStep, setBall1, skipGame, sampleSurprise, samplePlayer]

/-- C1 fails on the code: in `skipGame 100` both players have a live ball in slot 0, the one
of player 1 below the screen (`y = 513`) and the one of player 2 on screen at `(100, 100)`.
One `update` call leaves the ball of player 2 exactly as it was, although the integration
step would change it; and in `skipGame 600`, where the ball of player 2 is below the screen
too, that ball is still alive after the call. This holds for every collision handler and
spawn function. -/
theorem p2_ball_skipped (h : CollisionHandler) (sp : Game → Game) :
    ((skipGame 100).p1.balls 0).alive = true ∧ ((skipGame 100).p2.balls 0).alive = true ∧
    (update h sp { gravity := 1 / 2 } 0 (skipGame 100)).p2.balls 0 = (skipGame 100).p2.balls 0 ∧
    (integrate { gravity := 1 / 2 } ((skipGame 100).p2.balls 0)).x = 120 ∧
    ((skipGame 100).p2.balls 0).x = 100 ∧
    ((skipGame 600).p2.balls 0).y > SCREEN_HEIGHT ∧
    ((update h sp { gravity := 1 / 2 } 0 (skipGame 600)).p2.balls 0).alive = true := by
  have hs := integrate_scenario (liveBall 100 100 20 0) rfl rfl (by decide) (by decide)
  refine ⟨rfl, rfl, ?_, ?_, rfl, by decide, ?_⟩
  · rw [skipGame_update]
    rfl
  · exact hs.2.2.1
  · rw [skipGame_update]
    rfl

end Castrum
